import Mathlib

/-!
Verification of the COBOL-simulator core (lexer, preprocessor, runtime
interpreter) of the `webmainframe-cobol-simulator` repository.

The TypeScript sources are shallowly embedded: each embedded definition
mirrors one source function.  JavaScript strings are modelled as `List Char`
(`Str`); JavaScript numbers are modelled exactly by `JSNum`, a rational
together with the IEEE special values `NaN`, `Infinity` and `-Infinity`
(signed zero and rounding of non-terminating decimals are outside every
claim and are noted where they would matter).
-/

/-- Character lists stand in for JavaScript strings. -/
abbrev Str := List Char

namespace JS

/-- ASCII model of `String.prototype.toUpperCase` on one character. -/
def upperChar (c : Char) : Char :=
  if 'a' ≤ c ∧ c ≤ 'z' then Char.ofNat (c.toNat - 32) else c

/-- ASCII model of `String.prototype.toUpperCase`. -/
def toUpper (s : Str) : Str := s.map upperChar

/-- White-space test used by `trim` and by the lexer's `/\s/` check (the
JavaScript class also contains exotic unicode spaces that never occur in
the simulator's 80-column sources). -/
def isWs (c : Char) : Bool := c = ' ' ∨ c = '\t' ∨ c = '\n' ∨ c = '\r' ∨ c = '\x0b' ∨ c = '\x0c'

/-- Model of `String.prototype.trimStart`. -/
def trimStart (s : Str) : Str := s.dropWhile isWs

/-- Model of `String.prototype.trim`. -/
def trim (s : Str) : Str := ((s.dropWhile isWs).reverse.dropWhile isWs).reverse

/-- Model of `a.startsWith(p)`. -/
def startsWith : Str → Str → Bool
  | _, [] => true
  | [], _ :: _ => false
  | c :: cs, p :: ps => c = p ∧ startsWith cs ps

/-- Model of `a.endsWith(p)` (only single-character suffixes are used). -/
def endsWith (s p : Str) : Bool := startsWith s.reverse p.reverse

/-- Model of `a.includes(p)`. -/
def includes (s p : Str) : Bool :=
  match s with
  | [] => startsWith [] p
  | _ :: rest => startsWith s p || includes rest p

/-- Model of `a.indexOf(p)` (as `Option` instead of `-1`). -/
def indexOfSub (s p : Str) : Option Nat :=
  match s with
  | [] => if startsWith [] p then some 0 else none
  | _ :: rest =>
    if startsWith s p then some 0
    else (indexOfSub rest p).map (· + 1)

/-- Count of occurrences of one character, as done by the preprocessor's
`(textBefore.match(/"/g) || []).length` quote counting. -/
def countChar (c : Char) (s : Str) : Nat := (s.filter (· = c)).length

/-- Model of `s.padEnd(n, c)`. -/
def padEnd (s : Str) (n : Nat) (c : Char) : Str := s ++ List.replicate (n - s.length) c

/-- Model of `s.substring(a, b)` for the clamped case `a ≤ b` (all call
sites in the embedded sources satisfy it). -/
def substring (s : Str) (a b : Nat) : Str := (s.take b).drop a

/-- Model of `s.substring(a)` where `a` may be a negative index
(JavaScript clamps negative starts to `0`). -/
def substringFrom (s : Str) (a : Int) : Str := s.drop a.toNat

/-- Model of `source.split('\n')`. -/
def splitLines (s : Str) : List Str :=
  match s with
  | [] => [[]]
  | '\n' :: rest => [] :: splitLines rest
  | c :: rest =>
    match splitLines rest with
    | [] => [[c]]
    | l :: ls => (c :: l) :: ls

/-- Model of `lines.join('\n')`. -/
def joinLines : List Str → Str
  | [] => []
  | [l] => l
  | l :: ls => l ++ '\n' :: joinLines ls

/-- JavaScript numbers, exactly: a rational or one of the special values.
Signed zero is not distinguished (no claim depends on it). -/
inductive JSNum where
  | nan : JSNum
  | inf : JSNum
  | ninf : JSNum
  | fin : ℚ → JSNum
deriving DecidableEq

namespace JSNum

/-- Model of `isNaN`. -/
def isNaN : JSNum → Bool
  | nan => true
  | _ => false

/-- Model of `<` on numbers (`NaN` compares false to everything). -/
def lt : JSNum → JSNum → Bool
  | nan, _ => false
  | _, nan => false
  | inf, _ => false
  | _, inf => true
  | ninf, ninf => false
  | ninf, fin _ => true
  | fin _, ninf => false
  | fin a, fin b => a < b

/-- Model of `>` on numbers. -/
def gt (a b : JSNum) : Bool := lt b a

/-- Model of `===` on numbers (`NaN === NaN` is false). -/
def eqb : JSNum → JSNum → Bool
  | fin a, fin b => a = b
  | inf, inf => true
  | ninf, ninf => true
  | _, _ => false

/-- Model of unary minus. -/
def neg : JSNum → JSNum
  | nan => nan
  | inf => ninf
  | ninf => inf
  | fin q => fin (-q)

/-- Model of `+` on numbers. -/
def add : JSNum → JSNum → JSNum
  | nan, _ => nan
  | _, nan => nan
  | inf, ninf => nan
  | ninf, inf => nan
  | inf, _ => inf
  | _, inf => inf
  | ninf, _ => ninf
  | _, ninf => ninf
  | fin a, fin b => fin (a + b)

/-- Model of binary `-` on numbers. -/
def sub (a b : JSNum) : JSNum := add a (neg b)

/-- Model of `*` on numbers (`Infinity * 0` is `NaN`). -/
def mul : JSNum → JSNum → JSNum
  | nan, _ => nan
  | _, nan => nan
  | inf, inf => inf
  | inf, ninf => ninf
  | ninf, inf => ninf
  | ninf, ninf => inf
  | inf, fin q => if q = 0 then nan else if 0 < q then inf else ninf
  | fin q, inf => if q = 0 then nan else if 0 < q then inf else ninf
  | ninf, fin q => if q = 0 then nan else if 0 < q then ninf else inf
  | fin q, ninf => if q = 0 then nan else if 0 < q then ninf else inf
  | fin a, fin b => fin (a * b)

/-- Model of `/` on numbers: division by (unsigned) zero gives a signed
infinity, `0 / 0` gives `NaN`. -/
def div : JSNum → JSNum → JSNum
  | nan, _ => nan
  | _, nan => nan
  | inf, inf => nan
  | inf, ninf => nan
  | ninf, inf => nan
  | ninf, ninf => nan
  | inf, fin q => if 0 ≤ q then inf else ninf
  | ninf, fin q => if 0 ≤ q then ninf else inf
  | fin _, inf => fin 0
  | fin _, ninf => fin 0
  | fin a, fin b =>
    if b = 0 then (if a = 0 then nan else if 0 < a then inf else ninf)
    else fin (a / b)

/-- Base raised to an integer exponent, the exactly representable core of
`Math.pow` (used by `pow` below). -/
def powInt (b : JSNum) (n : ℤ) : JSNum :=
  match b with
  | nan => nan
  | inf => if 0 < n then inf else fin 0
  | ninf => if 0 < n then (if n % 2 = 0 then inf else ninf) else fin 0
  | fin q =>
    if q = 0 then (if 0 < n then fin 0 else inf)
    else fin (q ^ n)

/-- Model of `Math.pow` restricted to the exactly representable cases:
any pair with exponent `0` gives `1`; integer exponents are computed
exactly; a non-integer exponent (whose true value is in general
irrational) is mapped to `NaN`.  No simulator claim exercises `**`. -/
def pow : JSNum → JSNum → JSNum
  | b, fin e =>
    if e = 0 then fin 1
    else if e.den = 1 then powInt b e.num
    else nan
  | _, nan => nan
  | nan, _ => nan
  | fin b, inf => if b = 1 ∨ b = -1 then nan else if 1 < |b| then inf else fin 0
  | fin b, ninf => if b = 1 ∨ b = -1 then nan else if 1 < |b| then fin 0 else inf
  | inf, inf => inf
  | inf, ninf => fin 0
  | ninf, inf => inf
  | ninf, ninf => fin 0

/-- Model of `Math.floor`. -/
def floor : JSNum → JSNum
  | nan => nan
  | inf => inf
  | ninf => ninf
  | fin q => fin (⌊q⌋ : ℤ)

end JSNum

/-- Digit test (`/[0-9]/`). -/
def isDigit (c : Char) : Bool := '0' ≤ c ∧ c ≤ '9'

/-- Numeric value of a decimal digit string, most significant first. -/
def digitsToNat (s : Str) : Nat := s.foldl (fun a c => a * 10 + (c.toNat - 48)) 0

/-- Little-endian decimal digits of `n`, with structural fuel (`fuel ≥ n`
makes it total); agrees with `Nat.digits 10` (`natDigits_eq_digits`). -/
def natDigits : Nat → Nat → List Nat
  | 0, _ => []
  | fuel + 1, n => if n = 0 then [] else n % 10 :: natDigits fuel (n / 10)

/-- Decimal digits (most significant first) of a natural number, as
`Number.prototype.toString` prints it. -/
def natToChars (n : Nat) : Str :=
  if n = 0 then ['0'] else ((natDigits n n).map Nat.digitChar).reverse

/-- Model of `String(i)` for an integer-valued number. -/
def intToChars (i : ℤ) : Str :=
  if i < 0 then '-' :: natToChars i.natAbs else natToChars i.natAbs

/-- Fractional decimal digits of `num / den`, at most `fuel` of them.
Exact whenever the expansion terminates within `fuel` digits; every value
printed by an embedded claim is an integer, so the truncation is never
exercised. -/
def fracDigits : Nat → Nat → Nat → Str
  | 0, _, _ => []
  | _, 0, _ => []
  | fuel + 1, num, den =>
    if num = 0 then []
    else Nat.digitChar (num * 10 / den) :: fracDigits fuel (num * 10 % den) den

/-- Model of `String(q)` for a finite number: sign, integer part and (for
non-integers) a decimal point with the fraction's decimal expansion. -/
def ratToChars (q : ℚ) : Str :=
  if q.den = 1 then intToChars q.num
  else
    (if q < 0 then ['-'] else []) ++
      natToChars (⌊|q|⌋).toNat ++
      '.' :: fracDigits 32 (|q| - ⌊|q|⌋ : ℚ).num.toNat (|q| - ⌊|q|⌋ : ℚ).den

/-- Model of `String(n)` on a number. -/
def numToChars : JSNum → Str
  | JSNum.nan => "NaN".data
  | JSNum.inf => "Infinity".data
  | JSNum.ninf => "-Infinity".data
  | JSNum.fin q => ratToChars q

/-- Leading decimal-digit run of a string: its digits and the rest. -/
def takeDigits (s : Str) : Str × Str := (s.takeWhile isDigit, s.dropWhile isDigit)

/-- Optional sign: returns `true` for a consumed `-`, with the rest. -/
def takeSign : Str → Bool × Str
  | [] => (false, [])
  | c :: rest =>
    if c = '-' then (true, rest)
    else if c = '+' then (false, rest)
    else (false, c :: rest)

/-- Decimal-literal part of `Number(string)`: digits with optional
fraction and exponent, requiring the whole remaining string to match.
Returns `none` where JavaScript would produce `NaN`.  (The hexadecimal,
octal and binary literal forms never occur in the simulator's data.) -/
def parseDecimal (s : Str) : Option ℚ :=
  let (ip, r1) := takeDigits s
  let core : Option (ℚ × Str) :=
    match r1 with
    | '.' :: r2 =>
      let (fp, r3) := takeDigits r2
      if ip = [] ∧ fp = [] then none
      else some ((digitsToNat ip : ℚ) + (digitsToNat fp : ℚ) / (10 ^ fp.length : ℚ), r3)
    | _ => if ip = [] then none else some ((digitsToNat ip : ℚ), r1)
  match core with
  | none => none
  | some (m, rest) =>
    match rest with
    | [] => some m
    | e :: r4 =>
      if e = 'e' ∨ e = 'E' then
        let (eneg, r5) := takeSign r4
        let (ed, r6) := takeDigits r5
        if ed = [] ∨ r6 ≠ [] then none
        else some (m * (10 : ℚ) ^ (if eneg then -(digitsToNat ed : ℤ) else (digitsToNat ed : ℤ)))
      else none

/-- Model of `Number(string)`: trim, empty means `0`, signed `Infinity`
or a decimal literal, anything else is `NaN`. -/
def strToNum (s : Str) : JSNum :=
  let t := trim s
  if t = [] then JSNum.fin 0
  else
    let (neg, r) := takeSign t
    if r = "Infinity".data then (if neg then JSNum.ninf else JSNum.inf)
    else
      match parseDecimal r with
      | some q => JSNum.fin (if neg then -q else q)
      | none => JSNum.nan

/-- Model of `parseInt(s, 10)`: skip leading white-space, optional sign,
then the longest digit run; no digits means `NaN` (the rest is ignored). -/
def parseInt (s : Str) : JSNum :=
  let t := s.dropWhile isWs
  let (neg, r) := takeSign t
  let (d, _) := takeDigits r
  if d = [] then JSNum.nan
  else JSNum.fin (if neg then -(digitsToNat d : ℤ) else (digitsToNat d : ℤ))

/-- Code-unit lexicographic `<` on strings, as JavaScript compares them
(all embedded strings lie in the basic plane, where code units and code
points agree). -/
def strLt : Str → Str → Bool
  | [], [] => false
  | [], _ :: _ => true
  | _ :: _, [] => false
  | a :: as, b :: bs =>
    if a.toNat < b.toNat then true
    else if b.toNat < a.toNat then false
    else strLt as bs

end JS


/-- A `string | number` JavaScript value, as stored in runtime cells and
produced by `resolveValue`. -/
inductive JSVal where
  | str : Str → JSVal
  | num : JS.JSNum → JSVal
deriving DecidableEq

namespace JSVal

/-- Model of `String(val)` on a `string | number` value. -/
def toChars : JSVal → Str
  | str s => s
  | num n => JS.numToChars n

/-- Model of `Number(val)` on a `string | number` value. -/
def toNum : JSVal → JS.JSNum
  | str s => JS.strToNum s
  | num n => n

/-- Model of `val !== ""` (a number is strictly unequal to any string). -/
def neEmpty : JSVal → Bool
  | str s => s ≠ ([] : Str)
  | num _ => true

end JSVal

/-- A `PIC` type: alphanumeric (`'X'`) or numeric (`'9'`). -/
inductive PicType where
  | X : PicType
  | Nine : PicType
deriving DecidableEq

namespace Runtime

open JS (JSNum)

/-- Error message of `applyPicRules` for non-numeric data
(`IGZ0020S INVALID NUMERIC DATA '...'.`). -/
def invalidNumericMsg (val : JSVal) : Str :=
  "IGZ0020S INVALID NUMERIC DATA '".data ++ val.toChars ++ "'.".data

/-- Embedding of `Runtime.applyPicRules` (src/compiler/runtime.ts:152-170).
`'X'`: stringify, truncate to `length`, right-pad with spaces to `length`.
`'9'`: convert with `Number` (`NaN` throws), `Math.floor`, and when the
value exceeds `10^length - 1` keep the last `length` characters of its
decimal string via `substring` and `parseInt`. -/
def applyPicRules (val : JSVal) (ty : PicType) (length : Nat) : Except Str JSVal :=
  match ty with
  | .X =>
    let s := val.toChars
    let s := if s.length > length then JS.substring s 0 length else s
    let s := if s.length < length then JS.padEnd s length ' ' else s
    .ok (.str s)
  | .Nine =>
    let n := val.toNum
    if n.isNaN then .error (invalidNumericMsg val)
    else
      let n := n.floor
      let maxVal : JSNum := .fin ((10 : ℚ) ^ length - 1)
      if n.gt maxVal then
        let s := JS.numToChars n
        let truncated := JS.substringFrom s ((s.length : ℤ) - length)
        .ok (.num (JS.parseInt truncated))
      else .ok (.num n)

end Runtime

example : Runtime.applyPicRules (.str "ABCDE".data) .X 3 = .ok (.str "ABC".data) := by rfl
example : Runtime.applyPicRules (.str "A".data) .X 3 = .ok (.str "A  ".data) := by rfl
example : Runtime.applyPicRules (.num (.fin 12345)) .Nine 2 = .ok (.num (.fin 45)) := by
  with_unfolding_all rfl
example : Runtime.applyPicRules (.num (.fin (-12345))) .Nine 2 = .ok (.num (.fin (-12345))) := by
  with_unfolding_all rfl
example : Runtime.applyPicRules (.num .inf) .Nine 3 = .ok (.num .nan) := by
  with_unfolding_all rfl

/-- An AST-level `string | number` operand (the parser stores identifiers
and already-unquoted literals as strings, numeric literals as numbers). -/
inductive SrcVal where
  | s : Str → SrcVal
  | n : ℚ → SrcVal
deriving DecidableEq

/-- Relational operator of a `ConditionNode` (`'=' | '>' | '<'`). -/
inductive CmpOp where
  | eq : CmpOp
  | gtOp : CmpOp
  | ltOp : CmpOp
deriving DecidableEq

/-- Arithmetic operator of a binary expression node.  The source switches
on `TokenType` with a dead default (the parser only produces these five). -/
inductive BinOp where
  | plus : BinOp
  | minus : BinOp
  | asterisk : BinOp
  | slash : BinOp
  | power : BinOp
deriving DecidableEq

/-- Expression nodes (`ExpressionNode` in src/compiler/types.ts). -/
inductive Expr where
  | lit : ℚ → Expr
  | var : Str → Expr
  | unary : Expr → Expr
  | binary : BinOp → Expr → Expr → Expr
deriving DecidableEq

/-- Condition nodes (`ConditionNode`). -/
structure Cond where
  left : SrcVal
  operator : CmpOp
  right : SrcVal
deriving DecidableEq

/-- Statement nodes (`StatementNode`).  `ACCEPT`, `EXEC CICS` and the
file statements are omitted: the first two suspend on asynchronous host
callbacks and the file handlers in src/compiler/runtime.ts:586-589 have
empty bodies; no claim mentions them.  A `MOVE` reference-modification
slice is `(start, len)`; the parser produces integer literals there. -/
inductive Stmt where
  | move : SrcVal → Str → Option (ℤ × ℤ) → Stmt
  | add : SrcVal → Str → Stmt
  | subtract : SrcVal → Str → Stmt
  | multiply : SrcVal → Str → Stmt
  | divide : SrcVal → Str → Stmt
  | compute : Str → Expr → Stmt
  | display : List SrcVal → Stmt
  | ifS : Cond → List Stmt → Option (List Stmt) → Stmt
  | perform : List Stmt → Option Cond → Option SrcVal → Stmt
  | call : SrcVal → List Str → Stmt
  | exitProgram : Stmt
  | goback : Stmt
  | stopRun : Stmt

/-- A variable declaration (`VariableDeclarationNode`, level omitted:
the runtime never reads it). -/
structure VarDecl where
  name : Str
  picType : PicType
  picLength : Nat
  defaultValue : Option SrcVal

/-- A parsed program (`ProgramNode`), flattened to the fields the
runtime reads. -/
structure Program where
  id : Str
  workingStorage : List VarDecl
  linkageSection : List VarDecl
  usingParameters : List Str
  statements : List Stmt

namespace Runtime

open JS (JSNum)

/-- A runtime cell (`VariableContext`). -/
structure VarCell where
  name : Str
  picType : PicType
  length : Nat
  rawValue : JSVal
deriving DecidableEq

/-- A stack frame (`StackFrame`): cells live in one shared heap and the
frame's two maps hold heap indices, making the source's sharing of
`VariableContext` objects by reference explicit. -/
structure Frame where
  programId : Str
  memory : List (Str × Nat)
  linkage : List (Str × Nat)

/-- Runtime state: the call stack (top first), the cell heap, the two
output streams, the run flag and the program repository. -/
structure RState where
  callStack : List Frame
  heap : List VarCell
  output : List Str
  errors : List Str
  isRunning : Bool
  repo : List (Str × Program)

/-- Result of executing statements: normal, a thrown error (carrying the
state at the throw, since all mutations live in `this`), or fuel
exhaustion (a model artifact: the source recurses unboundedly). -/
inductive ExecRes where
  | ok : RState → ExecRes
  | err : RState → Str → ExecRes
  | oom : ExecRes

/-- The fixed loop ceiling `MAX_LOOP_ITERATIONS`. -/
def maxLoopIterations : Nat := 100000

/-- The fixed call-stack ceiling `MAX_STACK_DEPTH` (checked in
`executeProgram` only). -/
def maxStackDepth : Nat := 100

/-- Embedding of `Runtime.stripQuotes`. -/
def stripQuotes (s : Str) : Str :=
  if (JS.startsWith s ['"'] ∧ JS.endsWith s ['"']) ∨
      (JS.startsWith s ['\''] ∧ JS.endsWith s ['\'']) then
    (s.drop 1).dropLast
  else s

/-- Embedding of `Runtime.getVariable`: top frame's working storage
first, then its linkage; otherwise the undefined-variable abend.  The
cell is returned together with its heap index (the source returns the
shared `VariableContext` object itself). -/
def getVariable (st : RState) (name : Str) : Except Str (Nat × VarCell) :=
  match st.callStack with
  | [] => .error "INTERNAL ERROR: NO ACTIVE STACK FRAME.".data
  | frame :: _ =>
    match (frame.memory.lookup name).or (frame.linkage.lookup name) with
    | some i =>
      match st.heap.get? i with
      | some c => .ok (i, c)
      | none => .error "INTERNAL ERROR: NO ACTIVE STACK FRAME.".data
    | none =>
      .error ("IGYPS2001-E REFERENCE TO UNDEFINED VARIABLE '".data ++ name ++ "'.".data)

/-- Overwrite the value of heap cell `i` (mutation of the shared
`VariableContext.rawValue`). -/
def setRaw (st : RState) (i : Nat) (v : JSVal) : RState :=
  { st with heap :=
      match st.heap.get? i with
      | some c => st.heap.set i { c with rawValue := v }
      | none => st.heap }

/-- Embedding of `Runtime.resolveValue`: numbers pass through, quoted
strings are unquoted literals, anything else is a variable lookup. -/
def resolveValue (st : RState) : SrcVal → Except Str JSVal
  | .n q => .ok (.num (.fin q))
  | .s v =>
    if JS.startsWith v ['"'] ∨ JS.startsWith v ['\''] then .ok (.str (stripQuotes v))
    else (getVariable st v).map (fun p => p.2.rawValue)

/-- Embedding of `Runtime.handleMove` (src/compiler/runtime.ts:439-463):
stringify the resolved source; without a slice, store it through
`applyPicRules`; with a reference-modification slice, splice it into the
current value and truncate to the declared length. -/
def handleMove (st : RState) (source : SrcVal) (target : Str)
    (targetSlice : Option (ℤ × ℤ)) : Except Str RState := do
  let val := (← resolveValue st source).toChars
  let (ti, tcell) ← getVariable st target
  match targetSlice with
  | none => do
    let f ← applyPicRules (.str val) tcell.picType tcell.length
    return setRaw st ti f
  | some (start1, len) =>
    let current := tcell.rawValue.toChars
    let start : ℤ := start1 - 1
    let valPadded := (JS.padEnd val len.toNat ' ').take len.toNat
    let before := current.take start.toNat
    let after := current.drop (start + len).toNat
    let safeBefore := JS.padEnd before start.toNat ' '
    let final := safeBefore ++ valPadded ++ after
    return setRaw st ti (.str (final.take tcell.length))

/-- Embedding of `Runtime.handleMath` (src/compiler/runtime.ts:465-473).
The operator may itself throw (`DIVIDE` throws `DIV 0`). -/
def handleMath (st : RState) (value : SrcVal) (target : Str)
    (op : JSNum → JSNum → Except Str JSNum) : Except Str RState := do
  let valA := (← resolveValue st value).toNum
  if valA.isNaN then .error "IGZ0020S NON-NUMERIC OPERAND.".data
  else do
    let (ti, tcell) ← getVariable st target
    let valB := tcell.rawValue.toNum
    if tcell.picType ≠ .Nine then
      .error ("IGYPS2113-E DATA ITEM '".data ++ target ++ "' MUST BE NUMERIC.".data)
    else do
      let result ← op valA valB
      let f ← applyPicRules (.num result) .Nine tcell.length
      return setRaw st ti f

/-- Embedding of `Runtime.evaluateExpression` (src/compiler/runtime.ts:482-501).
Note that the `SLASH` case is plain JavaScript division: there is no
division-by-zero check here. -/
def evaluateExpression (st : RState) : Expr → Except Str JSNum
  | .lit q => .ok (.fin q)
  | .var name => do
    let (_, c) ← getVariable st name
    let num := c.rawValue.toNum
    if num.isNaN then .error "IGZ0020S NON-NUMERIC DATA.".data else .ok num
  | .unary e => (evaluateExpression st e).map JSNum.neg
  | .binary op l r => do
    let a ← evaluateExpression st l
    let b ← evaluateExpression st r
    return (match op with
      | .plus => a.add b
      | .minus => a.sub b
      | .asterisk => a.mul b
      | .slash => a.div b
      | .power => a.pow b)

/-- Embedding of `Runtime.handleCompute` (src/compiler/runtime.ts:475-480). -/
def handleCompute (st : RState) (target : Str) (expr : Expr) : Except Str RState := do
  let result ← evaluateExpression st expr
  let (ti, tcell) ← getVariable st target
  if tcell.picType ≠ .Nine then
    .error ("IGYPS2113-E TARGET '".data ++ target ++ "' MUST BE NUMERIC.".data)
  else do
    let f ← applyPicRules (.num result) .Nine tcell.length
    return setRaw st ti f

/-- Embedding of `Runtime.handleDisplay`. -/
def handleDisplay (st : RState) (values : List SrcVal) : Except Str RState := do
  let parts ← values.mapM (fun v => (resolveValue st v).map JSVal.toChars)
  return { st with output := st.output ++ [parts.flatten] }

/-- Embedding of `Runtime.evaluateCondition` (src/compiler/runtime.ts:571-583):
numeric comparison when both resolved operands convert to non-`NaN`
numbers and are strictly unequal to `""`, else code-unit string
comparison. -/
def evaluateCondition (st : RState) (cond : Cond) : Except Str Bool := do
  let rawLeft ← resolveValue st cond.left
  let rawRight ← resolveValue st cond.right
  let nL := rawLeft.toNum
  let nR := rawRight.toNum
  if ¬nL.isNaN ∧ ¬nR.isNaN ∧ rawLeft.neEmpty ∧ rawRight.neEmpty then
    return (match cond.operator with
      | .eq => nL.eqb nR
      | .gtOp => nL.gt nR
      | .ltOp => nL.lt nR)
  else
    let sL := rawLeft.toChars
    let sR := rawRight.toChars
    return (match cond.operator with
      | .eq => sL = sR
      | .gtOp => JS.strLt sR sL
      | .ltOp => JS.strLt sL sR)

/-- Embedding of `Runtime.initializeData`: build fresh cells (appended to
the heap) for each declaration, formatting the `VALUE` clause or the
type-appropriate default through `applyPicRules`; the returned map sends
each name to its heap index (later duplicates shadow earlier ones, as
`Map.set` does). -/
def initializeData (vars : List VarDecl) (heap : List VarCell)
    (acc : List (Str × Nat)) : Except Str (List (Str × Nat) × List VarCell) :=
  match vars with
  | [] => .ok (acc, heap)
  | v :: rest => do
    let rawValue : JSVal :=
      match v.defaultValue with
      | some (.s sv) => .str (stripQuotes sv)
      | some (.n q) => .num (.fin q)
      | none => if v.picType = .Nine then .num (.fin 0) else .str (List.replicate v.picLength ' ')
    let formatted ← applyPicRules rawValue v.picType v.picLength
    initializeData rest (heap ++ [⟨v.name, v.picType, v.picLength, formatted⟩])
      ((v.name, heap.length) :: acc)

/-- Heap indices of the caller's `USING` argument cells, in order
(`stmt.using.forEach` with `getVariable`; a missing argument throws). -/
def resolveArgs (st : RState) : List Str → Except Str (List Nat)
  | [] => .ok []
  | a :: rest => do
    let (i, _) ← getVariable st a
    let is ← resolveArgs st rest
    return i :: is

/-- The callee linkage map built by `Runtime.handleCall`: the i-th
`USING` parameter name is bound to the caller's i-th argument cell
itself (the heap index is shared, nothing is copied). -/
def buildLinkage (params : List Str) (argIdx : List Nat) : List (Str × Nat) :=
  (params.zip argIdx).reverse

end Runtime

namespace Runtime

open JS (JSNum)

/-- Lift a handler result into `ExecRes`; the handlers above mutate the
state only in their final step, so a thrown error leaves `st` as it was. -/
def liftE (st : RState) : Except Str RState → ExecRes
  | .ok st' => .ok st'
  | .error m => .err st m

/-- Pop the top stack frame. -/
def popFrame (st : RState) : RState := { st with callStack := st.callStack.tail }

mutual

/-- Embedding of `Runtime.executeStatements`: run the list in order,
stopping early when the run flag is cleared or the stack is empty; a
thrown error aborts the list.  Every recursive call of the interpreter
consumes one unit of fuel (`.oom` = fuel ran out, a model artifact: the
source recurses unboundedly). -/
def executeStatements : Nat → List Stmt → RState → ExecRes
  | 0, _, _ => .oom
  | _ + 1, [], st => .ok st
  | fuel + 1, stmt :: rest, st =>
    if ¬st.isRunning ∨ st.callStack.isEmpty then .ok st
    else
      match executeStatement fuel stmt st with
      | .ok st' => executeStatements fuel rest st'
      | r => r

/-- Embedding of `Runtime.executeStatement`'s dispatch (the claims'
statement kinds; see `Stmt` for the omitted ones). -/
def executeStatement : Nat → Stmt → RState → ExecRes
  | 0, _, _ => .oom
  | fuel + 1, stmt, st =>
    match stmt with
    | .move s t sl => liftE st (handleMove st s t sl)
    | .add v t => liftE st (handleMath st v t (fun a b => .ok (a.add b)))
    | .subtract v t => liftE st (handleMath st v t (fun a b => .ok (b.sub a)))
    | .multiply v t => liftE st (handleMath st v t (fun a b => .ok (a.mul b)))
    | .divide v t =>
      liftE st (handleMath st v t (fun a b =>
        if a.eqb (.fin 0) then .error "DIV 0".data else .ok (b.div a)))
    | .compute t e => liftE st (handleCompute st t e)
    | .display vs => liftE st (handleDisplay st vs)
    | .ifS c thenBody elseBody =>
      match evaluateCondition st c with
      | .error m => .err st m
      | .ok true => executeStatements fuel thenBody st
      | .ok false =>
        match elseBody with
        | some b => executeStatements fuel b st
        | none => .ok st
    | .perform body untilCond times =>
      match untilCond with
      | some cond => performUntilLoop fuel cond body 0 st
      | none =>
        match times with
        | some tv =>
          match resolveValue st tv with
          | .error m => .err st m
          | .ok v => performTimesLoop fuel (v.toNum) body 0 st
        | none => executeStatements fuel body st
    | .call pn args => handleCall fuel pn args st
    | .exitProgram => .ok (if st.callStack.length > 1 then popFrame st else st)
    | .goback =>
      if st.callStack.length > 1 then .ok (popFrame st)
      else .ok { st with isRunning := false }
    | .stopRun => .ok { st with isRunning := false }

/-- The `UNTIL` loop of `Runtime.handlePerform`
(src/compiler/runtime.ts:522-528): re-check the condition before each
iteration; past `MAX_LOOP_ITERATIONS` iterations throw the fatal
`IGZ0099S INFINITE LOOP.` abend. -/
def performUntilLoop : Nat → Cond → List Stmt → Nat → RState → ExecRes
  | 0, _, _, _, _ => .oom
  | fuel + 1, cond, body, iterations, st =>
    match evaluateCondition st cond with
    | .error m => .err st m
    | .ok true => .ok st
    | .ok false =>
      if ¬st.isRunning then .ok st
      else if iterations ≥ maxLoopIterations then .err st "IGZ0099S INFINITE LOOP.".data
      else
        match executeStatements fuel body st with
        | .ok st' => performUntilLoop fuel cond body (iterations + 1) st'
        | r => r

/-- The `TIMES` loop of `Runtime.handlePerform`
(src/compiler/runtime.ts:529-534): run while `i < count` (a JavaScript
number comparison), silently breaking once the iteration counter reaches
`MAX_LOOP_ITERATIONS` or the run flag clears. -/
def performTimesLoop : Nat → JSNum → List Stmt → Nat → RState → ExecRes
  | 0, _, _, _, _ => .oom
  | fuel + 1, count, body, i, st =>
    if (JSNum.fin i).lt count then
      if i ≥ maxLoopIterations ∨ ¬st.isRunning then .ok st
      else
        match executeStatements fuel body st with
        | .ok st' => performTimesLoop fuel count body (i + 1) st'
        | r => r
    else .ok st

/-- Embedding of `Runtime.handleCall` (src/compiler/runtime.ts:540-569):
resolve the program name, look it up (uppercased), check the `USING`
arity, alias the caller's argument cells into the callee linkage,
initialize fresh working storage, push, execute, and pop the frame if it
is still on top. -/
def handleCall : Nat → SrcVal → List Str → RState → ExecRes
  | 0, _, _, _ => .oom
  | fuel + 1, progNameV, args, st =>
    let nameRes : Except Str Str :=
      match progNameV with
      | .n q => .ok (JS.numToChars (.fin q))
      | .s raw =>
        if JS.startsWith raw ['"'] ∨ JS.startsWith raw ['\''] then .ok (stripQuotes raw)
        else (getVariable st raw).map (fun p => JS.trim p.2.rawValue.toChars)
    match nameRes with
    | .error m => .err st m
    | .ok progName0 =>
      let progName := JS.toUpper progName0
      match st.repo.lookup progName with
      | none =>
        .err st ("IGZ0002S CALL TO UNDEFINED PROGRAM '".data ++ progName ++ "'.".data)
      | some target =>
        let linkRes : Except Str (List (Str × Nat)) :=
          if args.length > 0 then
            if target.usingParameters.length ≠ args.length then
              .error "IGZ0003S PARAMETER MISMATCH.".data
            else (resolveArgs st args).map (buildLinkage target.usingParameters)
          else .ok []
        match linkRes with
        | .error m => .err st m
        | .ok linkage =>
          match initializeData target.workingStorage st.heap [] with
          | .error m => .err st m
          | .ok (mem, heap') =>
            let frame : Frame := ⟨target.id, mem, linkage⟩
            let st' := { st with heap := heap', callStack := frame :: st.callStack }
            match executeStatements fuel target.statements st' with
            | .ok st'' =>
              if st''.callStack.length = st.callStack.length + 1 then .ok (popFrame st'')
              else .ok st''
            | r => r

end

end Runtime

namespace Runtime

open JS (JSNum)

/-- Result of `Runtime.run` (`RuntimeResult`, without the CICS
`nextTransaction` field, which stays `undefined` in the embedded
fragment). -/
structure RuntimeResult where
  output : List Str
  errors : List Str
deriving DecidableEq

/-- The abend wrapper of `Runtime.run`'s catch clause. -/
def abendMsg (msg : Str) : Str :=
  "IGZ9999S RUNTIME TERMINATED ABNORMALLY: ".data ++ msg

/-- Embedding of `Runtime.executeProgram` (src/compiler/runtime.ts:217-243):
stack-depth check, working-storage and linkage initialization (with the
`DFHCOMMAREA` auto-population from the fresh CICS context's empty
commarea), push, execute, pop-if-still-on-top. -/
def executeProgram (fuel : Nat) (ast : Program) (st : RState) : ExecRes :=
  if st.callStack.length ≥ maxStackDepth then .err st "IGZ0099S STACK OVERFLOW.".data
  else
    match initializeData ast.workingStorage st.heap [] with
    | .error m => .err st m
    | .ok (mem, heap1) =>
      match initializeData ast.linkageSection heap1 [] with
      | .error m => .err st m
      | .ok (linkMem, heap2) =>
        let heap3 :=
          match linkMem.lookup "DFHCOMMAREA".data with
          | some i =>
            match heap2.get? i with
            | some c =>
              heap2.set i
                { c with rawValue := JSVal.str ((JS.padEnd [] c.length ' ').take c.length) }
            | none => heap2
          | none => heap2
        let frame : Frame := ⟨ast.id, mem, linkMem⟩
        let st' := { st with heap := heap3, callStack := frame :: st.callStack }
        match executeStatements fuel ast.statements st' with
        | .ok st'' =>
          if st''.callStack.length = st.callStack.length + 1 then .ok (popFrame st'')
          else .ok st''
        | r => r

/-- Embedding of `Runtime.run` (src/compiler/runtime.ts:197-215) for a
`Runtime` on which the programs of `repo` were registered beforehand:
reset the state, register `ast`, execute, and catch any thrown error by
appending the `IGZ9999S` abend to the error list, always returning the
output produced so far.  `none` means the model's fuel ran out. -/
def run (repo : List (Str × Program)) (fuel : Nat) (ast : Program) :
    Option RuntimeResult :=
  let st0 : RState :=
    { callStack := [], heap := [], output := [], errors := [], isRunning := true,
      repo := (JS.toUpper ast.id, ast) :: repo }
  match executeProgram fuel ast st0 with
  | .ok st => some ⟨st.output, st.errors⟩
  | .err st msg => some ⟨st.output, st.errors ++ [abendMsg msg]⟩
  | .oom => none

end Runtime

section DigitFacts

/-- The fuel-based digit extractor agrees with `Nat.digits 10`. -/
theorem natDigits_eq_digits : ∀ fuel n : Nat, n ≤ fuel → JS.natDigits fuel n = Nat.digits 10 n := by
  intro fuel
  induction fuel with
  | zero => intro n h; interval_cases n; simp [JS.natDigits]
  | succ f ih =>
    intro n h
    match n with
    | 0 => simp [JS.natDigits]
    | n + 1 =>
      rw [JS.natDigits, if_neg (Nat.succ_ne_zero n), ih ((n + 1) / 10) (by omega),
        Nat.digits_def' (by norm_num : (1:ℕ) < 10) (Nat.succ_pos n)]

/-- Taking the `k` low-order decimal digits realizes `· % 10 ^ k`. -/
theorem ofDigits_take_digits : ∀ (k n : Nat),
    Nat.ofDigits 10 ((Nat.digits 10 n).take k) = n % 10 ^ k := by
  intro k
  induction k with
  | zero => intro n; simp [Nat.ofDigits, Nat.mod_one]
  | succ k ih =>
    intro n
    rcases Nat.eq_zero_or_pos n with h0 | hp
    · subst h0; simp
    · rw [Nat.digits_def' (by norm_num : (1:ℕ) < 10) hp, List.take_succ_cons,
        Nat.ofDigits_cons, ih, pow_succ', Nat.mod_mul]

theorem digitChar_toNat {d : Nat} (h : d < 10) : (Nat.digitChar d).toNat - 48 = d := by
  interval_cases d <;> rfl

theorem isDigit_digitChar {d : Nat} (h : d < 10) : JS.isDigit (Nat.digitChar d) = true := by
  interval_cases d <;> rfl

/-- Folding the printed digits back up recovers `Nat.ofDigits`. -/
theorem digitsToNat_digitChar : ∀ (ds : List Nat), (∀ d ∈ ds, d < 10) →
    JS.digitsToNat ((ds.map Nat.digitChar).reverse) = Nat.ofDigits 10 ds := by
  intro ds h
  unfold JS.digitsToNat
  rw [List.foldl_reverse]
  induction ds with
  | nil => simp [Nat.ofDigits]
  | cons d rest ih =>
    simp only [List.map_cons, List.foldr_cons, Nat.ofDigits_cons]
    rw [ih (fun x hx => h x (List.mem_cons_of_mem d hx))]
    rw [digitChar_toNat (h d (List.mem_cons_self d rest))]
    ring

theorem not_isWs_of_isDigit {c : Char} (h : JS.isDigit c = true) : JS.isWs c = false := by
  simp only [JS.isDigit, decide_eq_true_eq] at h
  simp only [JS.isWs]
  have h1 : c ≠ ' ' := by rintro rfl; exact absurd h (by decide)
  have h2 : c ≠ '\t' := by rintro rfl; exact absurd h (by decide)
  have h3 : c ≠ '\n' := by rintro rfl; exact absurd h (by decide)
  have h4 : c ≠ '\r' := by rintro rfl; exact absurd h (by decide)
  have h5 : c ≠ '\x0b' := by rintro rfl; exact absurd h (by decide)
  have h6 : c ≠ '\x0c' := by rintro rfl; exact absurd h (by decide)
  simp [h1, h2, h3, h4, h5, h6]

theorem takeWhile_all {p : Char → Bool} : ∀ (s : Str), (∀ c ∈ s, p c = true) →
    s.takeWhile p = s ∧ s.dropWhile p = [] := by
  intro s h
  induction s with
  | nil => simp
  | cons c rest ih =>
    have hc : p c = true := h c (List.mem_cons_self c rest)
    have := ih (fun x hx => h x (List.mem_cons_of_mem c hx))
    simp [List.takeWhile_cons, List.dropWhile_cons, hc, this.1, this.2]

/-- `parseInt` on a non-empty all-digit string is exact. -/
theorem parseInt_digits (s : Str) (h1 : s ≠ []) (h2 : ∀ c ∈ s, JS.isDigit c = true) :
    JS.parseInt s = .fin (JS.digitsToNat s : ℚ) := by
  match s, h1 with
  | c :: rest, _ =>
    have hc : JS.isDigit c = true := h2 c (List.mem_cons_self c rest)
    have hws : (c :: rest).dropWhile JS.isWs = c :: rest := by
      simp [List.dropWhile_cons, not_isWs_of_isDigit hc]
    have hminus : c ≠ '-' := by rintro rfl; exact absurd hc (by decide)
    have hplus : c ≠ '+' := by rintro rfl; exact absurd hc (by decide)
    have htw := takeWhile_all (c :: rest) h2
    simp only [JS.parseInt, hws, JS.takeSign, hminus, hplus, if_false, JS.takeDigits,
      htw.1, htw.2]
    simp [hc]

end DigitFacts

section ClaimC2

/-- C2 (amended): for every non-negative integer value exceeding the
declared digit capacity of a Numeric (`PIC 9`) cell of at least one
digit, the stored result is the value reduced to its low-order digits
(`value mod 10 ^ length`), and the store returns normally (never a
rejection).  (As the claim stated it — over every value of excessive
magnitude — it fails for negative values, which the code stores
unchanged; see the counterexample.) -/
theorem C2_applyPicRules_overflow_mod (n : ℤ) (len : Nat) (hlen : 1 ≤ len)
    (hover : (10:ℤ) ^ len - 1 < n) :
    Runtime.applyPicRules (.num (.fin (n : ℚ))) .Nine len
      = .ok (.num (.fin ((n % 10 ^ len : ℤ) : ℚ))) := by
  have hpow : (1:ℤ) ≤ 10 ^ len := one_le_pow₀ (by norm_num)
  have hn0 : 0 < n := by omega
  set m : ℕ := n.natAbs with hm
  have hmn : (m : ℤ) = n := Int.natAbs_of_nonneg (le_of_lt hn0)
  have hple : (10:ℤ) ^ len = ((10 ^ len : ℕ) : ℤ) := by push_cast; ring
  have hpm : 10 ^ len ≤ m := by omega
  have hm0 : m ≠ 0 := by
    intro h; rw [h] at hmn; omega
  set D : List ℕ := Nat.digits 10 m with hD
  have hDlen : len < D.length := by
    have h1 : len ≤ Nat.log 10 m :=
      (Nat.pow_le_iff_le_log (by norm_num) hm0).mp hpm
    rw [hD, Nat.digits_len 10 m (by norm_num) hm0]
    omega
  have hfloor : (⌊(n:ℚ)⌋ : ℤ) = n := Int.floor_intCast n
  have hgt : ((JS.JSNum.fin ((n:ℚ))).gt (.fin ((10:ℚ) ^ len - 1))) = true := by
    simp only [JS.JSNum.gt, JS.JSNum.lt, decide_eq_true_eq]
    exact_mod_cast hover
  -- the printed string is the reversed digit list of m
  have hchars : JS.numToChars (.fin (n:ℚ)) = (D.map Nat.digitChar).reverse := by
    simp only [JS.numToChars, JS.ratToChars, Rat.den_intCast, if_pos rfl, JS.intToChars,
      Rat.num_intCast, if_neg (by omega : ¬n < 0), JS.natToChars, ← hm, if_neg hm0]
    rw [natDigits_eq_digits m m le_rfl]
    simp [hD]
  have hT : (D.take len) ≠ [] := by
    have hl : (D.take len).length = len := by rw [List.length_take]; omega
    intro h
    rw [h] at hl
    simp at hl
    omega
  have hTd : ∀ c ∈ ((D.take len).map Nat.digitChar).reverse, JS.isDigit c = true := by
    intro c hc
    rw [List.mem_reverse, List.mem_map] at hc
    obtain ⟨d, hd, rfl⟩ := hc
    exact isDigit_digitChar (Nat.digits_lt_base (by norm_num) (List.mem_of_mem_take hd))
  have hTrev : (((D.take len).map Nat.digitChar).reverse) ≠ [] := by
    have hlen2 : (((D.take len).map Nat.digitChar).reverse).length = len := by
      simp [List.length_take]
      omega
    intro h
    rw [h] at hlen2
    simp at hlen2
    omega
  -- evaluate the definition
  simp only [Runtime.applyPicRules, JSVal.toNum, JS.JSNum.isNaN, JS.JSNum.floor, hfloor]
  rw [if_neg (by simp), if_pos hgt, hchars]
  simp only [JS.substringFrom, List.length_reverse, List.length_map]
  have htoNat : ((D.length : ℤ) - (len : ℤ)).toNat = D.length - len := by omega
  rw [htoNat, List.drop_reverse]
  simp only [List.length_map]
  have harith : D.length - (D.length - len) = len := by omega
  rw [harith, ← List.map_take]
  rw [parseInt_digits _ hTrev hTd]
  rw [digitsToNat_digitChar _
    (fun d hd => Nat.digits_lt_base (by norm_num) (List.mem_of_mem_take hd))]
  rw [ofDigits_take_digits]
  have hcast : ((m % 10 ^ len : ℕ) : ℚ) = ((n % 10 ^ len : ℤ) : ℚ) := by
    rw [← hmn]
    norm_cast
  rw [hcast]

end ClaimC2

/-- C2 counterexample: the value `-123` stored into a `PIC 9(2)` cell has
magnitude exceeding the two-digit capacity, yet it is stored unchanged as
`-123` — not reduced to its low-order digits (`-123 mod 100` is `77` as a
euclidean remainder and `-23` as a truncated one, and the stored value is
neither). -/
theorem C2_counterexample_negative_value :
    Runtime.applyPicRules (.num (.fin (-123))) .Nine 2 = .ok (.num (.fin (-123)))
      ∧ (10 ^ 2 - 1 < (-123 : ℤ).natAbs)
      ∧ ((-123 : ℤ) % 10 ^ 2 = 77) ∧ (Int.tmod (-123) (10 ^ 2) = -23)
      ∧ ((-123 : ℚ) ≠ 77) ∧ ((-123 : ℚ) ≠ -23) :=
  ⟨by with_unfolding_all rfl, by norm_num, by decide, by decide, by norm_num, by norm_num⟩

/-- Witness for `C2_applyPicRules_overflow_mod` at `12345` into `PIC 9(2)`:
the stored value is `12345 % 100 = 45`. -/
theorem C2_applyPicRules_overflow_mod_witness :
    Runtime.applyPicRules (.num (.fin ((12345 : ℤ) : ℚ))) .Nine 2
      = .ok (.num (.fin ((12345 % 10 ^ 2 : ℤ) : ℚ))) :=
  C2_applyPicRules_overflow_mod 12345 2 (by norm_num) (by norm_num)

section ClaimC1

/-- Characterization of the alphanumeric branch of `applyPicRules`:
truncate to the declared length, right-pad with spaces, and the result
has exactly the declared length. -/
theorem applyPicRules_X_spec (s : Str) (L : Nat) :
    ∃ r : Str, Runtime.applyPicRules (.str s) .X L = .ok (.str r)
      ∧ r.length = L
      ∧ (L < s.length → r = s.take L)
      ∧ (s.length ≤ L → r = s ++ List.replicate (L - s.length) ' ') := by
  simp only [Runtime.applyPicRules, JSVal.toChars, JS.substring, List.drop_zero]
  by_cases h : L < s.length
  · have hmin : (s.take L).length = L := by simp [List.length_take]; omega
    refine ⟨s.take L, ?_, hmin, fun _ => rfl, fun h2 => absurd h (by omega)⟩
    rw [if_pos (show s.length > L from h), if_neg (by rw [hmin]; omega)]
  · rw [if_neg (show ¬(s.length > L) by omega)]
    by_cases h2 : s.length < L
    · refine ⟨s ++ List.replicate (L - s.length) ' ', ?_, ?_,
        fun h3 => absurd h3 (by omega), fun _ => rfl⟩
      · rw [if_pos h2]; rfl
      · simp; omega
    · have hEq : s.length = L := by omega
      refine ⟨s, ?_, hEq, fun h3 => absurd h3 (by omega), fun _ => by simp [hEq]⟩
      rw [if_neg (by omega)]

/-- C1: for every `MOVE` without reference modification into an
Alphanumeric (`PIC X`) cell, the stored value is the resolved source
string truncated to the target's declared length when longer, right-padded
with spaces to that length when shorter, and in all cases has exactly the
declared length. -/
theorem C1_move_alphanumeric (st : Runtime.RState) (source : SrcVal) (target : Str)
    (v : JSVal) (ti : Nat) (cell : Runtime.VarCell) (fuel : Nat)
    (hres : Runtime.resolveValue st source = .ok v)
    (htgt : Runtime.getVariable st target = .ok (ti, cell))
    (hX : cell.picType = .X) :
    ∃ stored : Str,
      Runtime.executeStatement (fuel + 1) (.move source target none) st
        = .ok (Runtime.setRaw st ti (.str stored))
      ∧ stored.length = cell.length
      ∧ (cell.length < v.toChars.length → stored = v.toChars.take cell.length)
      ∧ (v.toChars.length ≤ cell.length →
          stored = v.toChars ++ List.replicate (cell.length - v.toChars.length) ' ') := by
  obtain ⟨r, hr, hrlen, hrtrunc, hrpad⟩ := applyPicRules_X_spec v.toChars cell.length
  refine ⟨r, ?_, hrlen, hrtrunc, hrpad⟩
  simp only [Runtime.executeStatement, Runtime.handleMove, hres, htgt, hX, hr,
    Runtime.liftE, bind, Except.bind, pure, Except.pure]

end ClaimC1

section ClaimC1Witness

/-- Concrete one-cell state for the C1 witness: `WS-A PIC X(3)`. -/
def c1State : Runtime.RState :=
  { callStack := [⟨"MAIN".data, [("WS-A".data, 0)], []⟩],
    heap := [⟨"WS-A".data, .X, 3, .str "   ".data⟩],
    output := [], errors := [], isRunning := true, repo := [] }

/-- Witness for `C1_move_alphanumeric`: `MOVE "ABCDE" TO WS-A` with
`WS-A PIC X(3)` stores the truncation `"ABC"`. -/
theorem C1_move_alphanumeric_witness :
    ∃ stored : Str,
      Runtime.executeStatement 1 (.move (.s "\"ABCDE\"".data) "WS-A".data none) c1State
        = .ok (Runtime.setRaw c1State 0 (.str stored))
      ∧ stored.length = 3
      ∧ (3 < (JSVal.str "ABCDE".data).toChars.length →
          stored = (JSVal.str "ABCDE".data).toChars.take 3)
      ∧ ((JSVal.str "ABCDE".data).toChars.length ≤ 3 →
          stored = (JSVal.str "ABCDE".data).toChars
            ++ List.replicate (3 - (JSVal.str "ABCDE".data).toChars.length) ' ') :=
  C1_move_alphanumeric c1State (.s "\"ABCDE\"".data) "WS-A".data
    (.str "ABCDE".data) 0 ⟨"WS-A".data, .X, 3, .str "   ".data⟩ 0
    (by with_unfolding_all rfl) (by with_unfolding_all rfl) rfl

end ClaimC1Witness

section ClaimC4

/-- C4: a `PERFORM UNTIL` whose condition is already true at entry
executes its body zero times (the state is returned unchanged), and a
`PERFORM n TIMES` whose resolved count is a number `≤ 0` executes its
body zero times. -/
theorem C4_perform_zero_iterations (fuel : Nat) (st : Runtime.RState)
    (body : List Stmt) (cond : Cond) (t : Option SrcVal) (tv : SrcVal) (v : JSVal) (q : ℚ) :
    (Runtime.evaluateCondition st cond = .ok true →
      Runtime.executeStatement (fuel + 2) (.perform body (some cond) t) st = .ok st)
    ∧ (Runtime.resolveValue st tv = .ok v → v.toNum = .fin q → q ≤ 0 →
      Runtime.executeStatement (fuel + 2) (.perform body none (some tv)) st = .ok st) := by
  constructor
  · intro hc
    simp only [Runtime.executeStatement, Runtime.performUntilLoop, hc]
  · intro hres hnum hq
    simp only [Runtime.executeStatement, Runtime.performTimesLoop, hres, hnum,
      JS.JSNum.lt]
    rw [if_neg]
    simp only [decide_eq_true_eq, Nat.cast_zero]
    intro h
    linarith

end ClaimC4

section ClaimC4Witness

/-- An empty runtime state (conditions over literals need no frame). -/
def emptyState : Runtime.RState :=
  { callStack := [], heap := [], output := [], errors := [], isRunning := true, repo := [] }

/-- Witness for `C4_perform_zero_iterations`: `PERFORM UNTIL 1 = 1`
(true at entry) and `PERFORM -5 TIMES` both return the state unchanged. -/
theorem C4_perform_zero_iterations_witness :
    (Runtime.evaluateCondition emptyState ⟨.n 1, .eq, .n 1⟩ = .ok true →
      Runtime.executeStatement 2
        (.perform [.stopRun] (some ⟨.n 1, .eq, .n 1⟩) none) emptyState = .ok emptyState)
    ∧ (Runtime.resolveValue emptyState (.n (-5)) = .ok (.num (.fin (-5))) →
      (JSVal.num (.fin (-5))).toNum = .fin (-5) → (-5 : ℚ) ≤ 0 →
      Runtime.executeStatement 2
        (.perform [.stopRun] none (some (.n (-5)))) emptyState = .ok emptyState)
    ∧ Runtime.evaluateCondition emptyState ⟨.n 1, .eq, .n 1⟩ = .ok true
    ∧ Runtime.resolveValue emptyState (.n (-5)) = .ok (.num (.fin (-5))) :=
  ⟨(C4_perform_zero_iterations 0 emptyState [.stopRun] ⟨.n 1, .eq, .n 1⟩ none
      (.n (-5)) (.num (.fin (-5))) (-5)).1,
   fun h1 h2 h3 => (C4_perform_zero_iterations 0 emptyState [.stopRun] ⟨.n 1, .eq, .n 1⟩ none
      (.n (-5)) (.num (.fin (-5))) (-5)).2 h1 h2 h3,
   by with_unfolding_all rfl, by with_unfolding_all rfl⟩

end ClaimC4Witness

section ClaimC5

/-- Concrete state for the C5 failing input: `WS-R PIC 9(3)` holding `0`. -/
def c5State : Runtime.RState :=
  { callStack := [⟨"MAIN".data, [("WS-R".data, 0)], []⟩],
    heap := [⟨"WS-R".data, .Nine, 3, .num (.fin 0)⟩],
    output := [], errors := [], isRunning := true, repo := [] }

/-- C5 (code bug, failing input `COMPUTE WS-R = 5 / 0` with
`WS-R PIC 9(3)`): the expression evaluator has no division-by-zero
check — `5 / 0` evaluates to `Infinity`, and the COMPUTE statement
completes normally, storing `NaN` into the target (the last three
characters of the string `"Infinity"` parse as `NaN`) with no error
recorded; the claim (and spec §4.6) says division by zero is fatal. -/
theorem C5_compute_div_zero_not_fatal :
    Runtime.evaluateExpression c5State (.binary .slash (.lit 5) (.lit 0)) = .ok .inf
    ∧ Runtime.executeStatement 1
        (.compute "WS-R".data (.binary .slash (.lit 5) (.lit 0))) c5State
      = .ok (Runtime.setRaw c5State 0 (.num .nan))
    ∧ (Runtime.setRaw c5State 0 (.num .nan)).errors = []
    ∧ (Runtime.setRaw c5State 0 (.num .nan)).isRunning = true :=
  ⟨by with_unfolding_all rfl, by with_unfolding_all rfl, rfl, rfl⟩

end ClaimC5

section ClaimC9

open Runtime in
/-- C9: for every `IF`, when both resolved operands convert to non-`NaN`
numbers and are non-blank (strictly unequal to `""`), the condition is the
numeric comparison of the two numbers; otherwise it is the code-unit
lexicographic comparison of the two strings; and the `IF` statement
executes the `THEN` body exactly when the condition is true, the `ELSE`
body (or nothing) exactly when it is false. -/
theorem C9_if_numeric_or_lexicographic (st : Runtime.RState) (cond : Cond)
    (rawLeft rawRight : JSVal) (fuel : Nat) (thenBody : List Stmt)
    (elseBody : Option (List Stmt))
    (hL : Runtime.resolveValue st cond.left = .ok rawLeft)
    (hR : Runtime.resolveValue st cond.right = .ok rawRight) :
    (rawLeft.toNum.isNaN = false → rawRight.toNum.isNaN = false →
      rawLeft.neEmpty = true → rawRight.neEmpty = true →
      Runtime.evaluateCondition st cond = .ok (match cond.operator with
        | .eq => rawLeft.toNum.eqb rawRight.toNum
        | .gtOp => rawRight.toNum.lt rawLeft.toNum
        | .ltOp => rawLeft.toNum.lt rawRight.toNum))
    ∧ (rawLeft.toNum.isNaN = true ∨ rawRight.toNum.isNaN = true ∨
        rawLeft.neEmpty = false ∨ rawRight.neEmpty = false →
      Runtime.evaluateCondition st cond = .ok (match cond.operator with
        | .eq => decide (rawLeft.toChars = rawRight.toChars)
        | .gtOp => JS.strLt rawRight.toChars rawLeft.toChars
        | .ltOp => JS.strLt rawLeft.toChars rawRight.toChars))
    ∧ (∀ b, Runtime.evaluateCondition st cond = .ok b →
        Runtime.executeStatement (fuel + 1) (.ifS cond thenBody elseBody) st
          = (if b then Runtime.executeStatements fuel thenBody st
             else match elseBody with
               | some bdy => Runtime.executeStatements fuel bdy st
               | none => .ok st)) := by
  refine ⟨?_, ?_, ?_⟩
  · intro h1 h2 h3 h4
    simp only [Runtime.evaluateCondition, hL, hR, bind, Except.bind, h1, h2, h3, h4]
    simp [JS.JSNum.gt, pure, Except.pure]
  · intro hdisj
    simp only [Runtime.evaluateCondition, hL, hR, bind, Except.bind, pure, Except.pure]
    rw [if_neg (by rcases hdisj with h | h | h | h <;> simp [h])]
  · intro b hb
    cases b <;>
      simp only [Runtime.executeStatement, hb, if_true, if_false, Bool.false_eq_true,
        reduceIte]

end ClaimC9

section ClaimC9Witness

/-- Condition `"12" < "9"`: numerically false, lexicographically true. -/
def c9Cond : Cond := ⟨.s "\"12\"".data, .ltOp, .s "\"9\"".data⟩

/-- Witness for `C9_if_numeric_or_lexicographic`: both operands parse as
numbers, so `"12" < "9"` compares numerically (false — lexicographically
it would be true), and the `IF` with no `ELSE` executes nothing. -/
theorem C9_if_numeric_or_lexicographic_witness :
    Runtime.evaluateCondition emptyState c9Cond = .ok false
    ∧ Runtime.executeStatement 1 (.ifS c9Cond [.stopRun] none) emptyState = .ok emptyState := by
  have h := C9_if_numeric_or_lexicographic emptyState c9Cond (.str "12".data) (.str "9".data)
    0 [.stopRun] none (by with_unfolding_all rfl) (by with_unfolding_all rfl)
  have h1 := h.1 (by with_unfolding_all rfl) (by with_unfolding_all rfl)
    (by with_unfolding_all rfl) (by with_unfolding_all rfl)
  have h2 : Runtime.evaluateCondition emptyState c9Cond = .ok false := by
    rw [h1]
    with_unfolding_all rfl
  refine ⟨h2, ?_⟩
  rw [h.2.2 false h2]
  rfl

end ClaimC9Witness

section ClaimC3

/-- Unquoting a literal built by wrapping arbitrary text in quotes. -/
theorem stripQuotes_quote (d : Str) :
    Runtime.stripQuotes ('"' :: (d ++ ['"'])) = d := by
  have h1 : JS.startsWith ('"' :: (d ++ ['"'])) ['"'] = true := by simp [JS.startsWith]
  have h2 : JS.endsWith ('"' :: (d ++ ['"'])) ['"'] = true := by
    simp [JS.endsWith, List.reverse_append, JS.startsWith]
  simp only [Runtime.stripQuotes, h1, h2, Bool.and_self, true_and, if_pos, or_true, true_or,
    if_true]
  simp [List.dropLast_concat]

/-- A program `DISPLAY "d". <p2>.` with empty working storage. -/
def twoStmtProg (d : Str) (p2 : Stmt) : Program :=
  { id := "MAIN".data, workingStorage := [], linkageSection := [],
    usingParameters := [],
    statements := [.display [.s ('"' :: d ++ ['"'])], p2] }

/-- The state after `DISPLAY "d"` in a two-statement program whose data
division is empty. -/
def c3MidState (d : Str) (p2 : Stmt) : Runtime.RState :=
  { callStack := [⟨"MAIN".data, [], []⟩], heap := [], output := [d],
    errors := [], isRunning := true,
    repo := [("MAIN".data, twoStmtProg d p2)] }

/-- The initial frame state of `twoStmtProg` (its data division is
empty). -/
def stStart (d : Str) (p2 : Stmt) : Runtime.RState :=
  { callStack := [⟨"MAIN".data, [], []⟩], heap := [], output := [],
    errors := [], isRunning := true,
    repo := [("MAIN".data, twoStmtProg d p2)] }

/-- Executing `DISPLAY "d"` from any state appends `d` to the output. -/
theorem execDisplayLit (g : Nat) (st : Runtime.RState) (d : Str) :
    Runtime.executeStatement (g + 1) (.display [.s ('"' :: (d ++ ['"']))]) st
      = .ok { st with output := st.output ++ [d] } := by
  simp [Runtime.executeStatement, Runtime.handleDisplay, Runtime.resolveValue,
    Runtime.liftE, List.mapM_cons, List.mapM_nil, List.mapM.loop, bind, Except.bind,
    pure, Except.pure, Except.map, stripQuotes_quote, JSVal.toChars, JS.startsWith]

/-- Running `DISPLAY "d". <p2>.` reduces to executing `p2` from the
mid-state: a normal end and a thrown abend both preserve the output. -/
theorem run_twoStmtProg (d : Str) (p2 : Stmt) (f : Nat) :
    Runtime.run [] (f + 3) (twoStmtProg d p2) =
      match Runtime.executeStatement (f + 1) p2 (c3MidState d p2) with
      | .ok st2 => some ⟨st2.output, st2.errors⟩
      | .err st2 m => some ⟨st2.output, st2.errors ++ [Runtime.abendMsg m]⟩
      | .oom => none := by
  cases hr : Runtime.executeStatement (f + 1) p2 (c3MidState d p2) with
  | ok st2 =>
    simp only [c3MidState, twoStmtProg, List.cons_append] at hr
    simp [Runtime.run, Runtime.executeProgram, twoStmtProg, Runtime.initializeData,
      Runtime.maxStackDepth, Runtime.executeStatements, Runtime.popFrame,
      bind, Except.bind, pure, Except.pure, JS.toUpper, JS.upperChar,
      execDisplayLit, hr]
    by_cases hl : st2.callStack.length = 1 <;> simp [hl]
  | err st2 m =>
    simp only [c3MidState, twoStmtProg, List.cons_append] at hr
    simp [Runtime.run, Runtime.executeProgram, twoStmtProg, Runtime.initializeData,
      Runtime.maxStackDepth, Runtime.executeStatements, Runtime.popFrame,
      bind, Except.bind, pure, Except.pure, JS.toUpper, JS.upperChar,
      execDisplayLit, hr]
  | oom =>
    simp only [c3MidState, twoStmtProg, List.cons_append] at hr
    simp [Runtime.run, Runtime.executeProgram, twoStmtProg, Runtime.initializeData,
      Runtime.maxStackDepth, Runtime.executeStatements, Runtime.popFrame,
      bind, Except.bind, pure, Except.pure, JS.toUpper, JS.upperChar,
      execDisplayLit, hr]

/-- An `UNTIL` loop with an empty body and a never-true condition reaches
the iteration ceiling and throws the fatal infinite-loop abend. -/
theorem performUntilLoop_abend (cond : Cond) (st : Runtime.RState)
    (hrun : st.isRunning = true)
    (hcond : Runtime.evaluateCondition st cond = .ok false) :
    ∀ (k i g : Nat), Runtime.maxLoopIterations ≤ i + k →
      i ≤ Runtime.maxLoopIterations → k + 1 ≤ g →
      Runtime.performUntilLoop g cond [] i st
        = .err st "IGZ0099S INFINITE LOOP.".data := by
  intro k
  induction k with
  | zero =>
    intro i g h1 h2 hg
    obtain ⟨g', rfl⟩ : ∃ g', g = g' + 1 := ⟨g - 1, by omega⟩
    have hi : i ≥ Runtime.maxLoopIterations := by omega
    simp [Runtime.performUntilLoop, hcond, hrun, hi]
  | succ k ih =>
    intro i g h1 h2 hg
    obtain ⟨g', rfl⟩ : ∃ g', g = g' + 1 := ⟨g - 1, by omega⟩
    by_cases hi : i ≥ Runtime.maxLoopIterations
    · simp [Runtime.performUntilLoop, hcond, hrun, hi]
    · obtain ⟨g'', rfl⟩ : ∃ g'', g' = g'' + 1 := ⟨g' - 1, by omega⟩
      have step : Runtime.performUntilLoop (g'' + 1 + 1) cond [] i st
          = Runtime.performUntilLoop (g'' + 1) cond [] (i + 1) st := by
        conv_lhs => unfold Runtime.performUntilLoop
        simp [hcond, hrun, hi, Runtime.executeStatements]
      rw [step, ih (i + 1) (g'' + 1) (by omega) (by omega) (by omega)]

/-- A `TIMES` loop with an empty body whose count stays above the
iteration counter is silently capped at the ceiling: it returns normally
with the state unchanged and no error. -/
theorem performTimesLoop_cap (count : JS.JSNum) (st : Runtime.RState)
    (hrun : st.isRunning = true)
    (hcount : ∀ j : Nat, j ≤ Runtime.maxLoopIterations →
      ((JS.JSNum.fin j).lt count) = true) :
    ∀ (k i g : Nat), Runtime.maxLoopIterations ≤ i + k →
      i ≤ Runtime.maxLoopIterations → k + 1 ≤ g →
      Runtime.performTimesLoop g count [] i st = .ok st := by
  intro k
  induction k with
  | zero =>
    intro i g h1 h2 hg
    obtain ⟨g', rfl⟩ : ∃ g', g = g' + 1 := ⟨g - 1, by omega⟩
    have hi : i ≥ Runtime.maxLoopIterations := by omega
    simp [Runtime.performTimesLoop, hcount i h2, hi]
  | succ k ih =>
    intro i g h1 h2 hg
    obtain ⟨g', rfl⟩ : ∃ g', g = g' + 1 := ⟨g - 1, by omega⟩
    by_cases hi : i ≥ Runtime.maxLoopIterations
    · simp [Runtime.performTimesLoop, hcount i h2, hi]
    · obtain ⟨g'', rfl⟩ : ∃ g'', g' = g'' + 1 := ⟨g' - 1, by omega⟩
      have step : Runtime.performTimesLoop (g'' + 1 + 1) count [] i st
          = Runtime.performTimesLoop (g'' + 1) count [] (i + 1) st := by
        conv_lhs => unfold Runtime.performTimesLoop
        simp [hcount i h2, hi, hrun, Runtime.executeStatements]
      rw [step, ih (i + 1) (g'' + 1) (by omega) (by omega) (by omega)]

/-- One dispatch step of `executeStatement` on a literal-count
`PERFORM TIMES`. -/
theorem execPerformTimesStep (g : Nat) (st : Runtime.RState) (q : ℚ) (body : List Stmt) :
    Runtime.executeStatement (g + 1) (.perform body none (some (.n q))) st
      = Runtime.performTimesLoop g (.fin q) body 0 st := by
  simp only [Runtime.executeStatement, Runtime.resolveValue, JSVal.toNum]

/-- One dispatch step of `executeStatement` on a `PERFORM UNTIL`. -/
theorem execPerformUntilStep (g : Nat) (st : Runtime.RState) (cond : Cond) (body : List Stmt) :
    Runtime.executeStatement (g + 1) (.perform body (some cond) none) st
      = Runtime.performUntilLoop g cond body 0 st := by
  simp only [Runtime.executeStatement]

/-- C3 (amended): a `PERFORM UNTIL` whose condition never becomes true
iterates up to the fixed ceiling and then terminates the whole run with
the fatal `IGZ0099S INFINITE LOOP.` abend recorded in the error list,
preserving the output produced before the fault; a `PERFORM n TIMES`
whose resolved count exceeds the ceiling is instead silently capped at
the ceiling: the run completes with no error, also preserving prior
output.  (As the claim stated it — an infinite-loop error for both loop
forms — it fails for `TIMES`; see the counterexample.) -/
theorem C3_loop_ceiling_behaviour (d : Str) (cond : Cond) (count : ℚ)
    (hcond : ∀ st : Runtime.RState, Runtime.evaluateCondition st cond = .ok false)
    (hcount : ∀ j : Nat, j ≤ Runtime.maxLoopIterations → (j : ℚ) < count) :
    Runtime.run [] (Runtime.maxLoopIterations + 5) (twoStmtProg d (.perform [] (some cond) none))
      = some ⟨[d], [Runtime.abendMsg "IGZ0099S INFINITE LOOP.".data]⟩
    ∧ Runtime.run [] (Runtime.maxLoopIterations + 5) (twoStmtProg d (.perform [] none (some (.n count))))
      = some ⟨[d], []⟩ := by
  have hfuel : Runtime.maxLoopIterations + 5 = (Runtime.maxLoopIterations + 2) + 3 := by omega
  constructor
  · rw [hfuel, run_twoStmtProg]
    have hloop := performUntilLoop_abend cond
      (c3MidState d (.perform [] (some cond) none)) rfl
      (hcond _) Runtime.maxLoopIterations 0 (Runtime.maxLoopIterations + 2)
      (by omega) (by omega) (by omega)
    rw [execPerformUntilStep, hloop]
    simp only [c3MidState, List.nil_append]
  · rw [hfuel, run_twoStmtProg]
    have hcount2 : ∀ j : Nat, j ≤ Runtime.maxLoopIterations →
        ((JS.JSNum.fin j).lt (.fin count)) = true := by
      intro j hj
      simp only [JS.JSNum.lt, decide_eq_true_eq]
      exact hcount j hj
    have hloop := performTimesLoop_cap (.fin count)
      (c3MidState d (.perform [] none (some (.n count)))) rfl hcount2
      Runtime.maxLoopIterations 0 (Runtime.maxLoopIterations + 2)
      (by omega) (by omega) (by omega)
    rw [execPerformTimesStep, hloop]
    simp only [c3MidState]

end ClaimC3

/-- C3 counterexample: `DISPLAY "A". PERFORM 200000 TIMES ... END-PERFORM.`
would iterate past the 100000-iteration ceiling, yet the run ends with an
EMPTY error list (the `TIMES` loop silently breaks at the ceiling), while
the claim requires a fatal "infinite loop" error to be recorded. -/
theorem C3_counterexample_times_no_error :
    Runtime.maxLoopIterations < 200000
    ∧ Runtime.run [] (Runtime.maxLoopIterations + 5)
        (twoStmtProg "A".data (.perform [] none (some (.n 200000))))
      = some ⟨["A".data], []⟩ := by
  refine ⟨by norm_num [Runtime.maxLoopIterations], ?_⟩
  rw [show Runtime.maxLoopIterations + 5 = (Runtime.maxLoopIterations + 2) + 3 from by omega,
    run_twoStmtProg]
  have hcount2 : ∀ j : Nat, j ≤ Runtime.maxLoopIterations →
      ((JS.JSNum.fin j).lt (.fin 200000)) = true := by
    intro j hj
    simp only [JS.JSNum.lt, decide_eq_true_eq]
    have hj' : j ≤ 100000 := by simpa [Runtime.maxLoopIterations] using hj
    have h2 : (j : ℚ) ≤ 100000 := by exact_mod_cast hj'
    linarith
  have hloop := performTimesLoop_cap (.fin 200000)
    (c3MidState "A".data (.perform [] none (some (.n 200000)))) rfl hcount2
    Runtime.maxLoopIterations 0 (Runtime.maxLoopIterations + 2)
    (by omega) (by omega) (by omega)
  rw [execPerformTimesStep, hloop]
  simp only [c3MidState]

/-- Witness for `C3_loop_ceiling_behaviour` at `DISPLAY "A"` with the
never-true condition `1 = 2` and the over-ceiling count `200000`. -/
theorem C3_loop_ceiling_behaviour_witness :
    Runtime.run [] (Runtime.maxLoopIterations + 5)
        (twoStmtProg "A".data (.perform [] (some ⟨.n 1, .eq, .n 2⟩) none))
      = some ⟨["A".data], [Runtime.abendMsg "IGZ0099S INFINITE LOOP.".data]⟩
    ∧ Runtime.run [] (Runtime.maxLoopIterations + 5)
        (twoStmtProg "A".data (.perform [] none (some (.n 200000))))
      = some ⟨["A".data], []⟩ :=
  C3_loop_ceiling_behaviour "A".data ⟨.n 1, .eq, .n 2⟩ 200000
    (fun _ => by with_unfolding_all rfl)
    (fun j hj => by
      have hj' : j ≤ 100000 := by simpa [Runtime.maxLoopIterations] using hj
      have h2 : (j : ℚ) ≤ 100000 := by exact_mod_cast hj'
      linarith)

section ClaimC8

/-- `lookup` distributes over append, preferring the left list. -/
theorem lookup_append (l1 l2 : List (Str × Nat)) (key : Str) :
    (l1 ++ l2).lookup key = (l1.lookup key).or (l2.lookup key) := by
  induction l1 with
  | nil => simp [List.lookup]
  | cons x xs ih =>
    simp only [List.cons_append, List.lookup]
    cases h : key == x.1
    · exact ih
    · rfl

/-- `lookup` misses when no key matches. -/
theorem lookup_eq_none (l : List (Str × Nat)) (key : Str)
    (h : ∀ x ∈ l, x.1 ≠ key) : l.lookup key = none := by
  induction l with
  | nil => rfl
  | cons x xs ih =>
    simp only [List.lookup]
    rw [show (key == x.1) = false from
      beq_eq_false_iff_ne.mpr (Ne.symm (h x (List.mem_cons_self x xs)))]
    exact ih (fun y hy => h y (List.mem_cons_of_mem x hy))

/-- Looking a parameter up in the reversed zip finds its positional
partner, provided the parameter names are distinct. -/
theorem lookup_zip_reverse : ∀ (params : List Str) (idxs : List Nat) (i : Nat)
    (pk : Str) (ji : Nat), params.Nodup → params.length = idxs.length →
    params.get? i = some pk → idxs.get? i = some ji →
    ((params.zip idxs).reverse).lookup pk = some ji := by
  intro params
  induction params with
  | nil => intro idxs i pk ji _ _ h; simp at h
  | cons q ps ih =>
    intro idxs i pk ji hnd hlen hp hj
    match idxs, hlen with
    | j :: js, hlen2 =>
      simp only [List.zip_cons_cons, List.reverse_cons, lookup_append]
      match i, hp, hj with
      | 0, hp, hj =>
        simp only [List.get?] at hp hj
        cases hp; cases hj
        rw [lookup_eq_none]
        · simp [List.lookup]
        · intro x hx
          rw [List.mem_reverse] at hx
          have hx1 := List.of_mem_zip hx
          have : q ∉ ps := (List.nodup_cons.mp hnd).1
          intro hcontra
          exact this (hcontra ▸ hx1.1)
      | i + 1, hp, hj =>
        simp only [List.get?] at hp hj
        rw [ih js i pk ji (List.nodup_cons.mp hnd).2 (by simpa using hlen2) hp hj]
        rfl

end ClaimC8

section ClaimC8Main

/-- Setting a list index that exists makes `get?` return the new value. -/
theorem get_set_self {α : Type} : ∀ (l : List α) (i : Nat) (c x : α),
    l.get? i = some c → (l.set i x).get? i = some x := by
  intro l
  induction l with
  | nil => intro i c x h; simp at h
  | cons y ys ih =>
    intro i c x h
    cases i with
    | zero => rfl
    | succ j => exact ih j c x (by simpa using h)

/-- C8: `CALL ... USING` aliases cells, never copies.  (a) The linkage
map built by `Runtime.handleCall` binds the i-th parameter name to the
caller's i-th argument heap index (for distinct parameter names).
(b) Executing a `CALL` whose callee's only statement moves a literal into
its linkage parameter returns with the caller's own argument cell
overwritten: the callee's assignment is visible in the caller's cell. -/
theorem C8_call_linkage_aliasing
    (st : Runtime.RState) (fuel : Nat) (a p subId subName v : Str) (ia : Nat)
    (cell : Runtime.VarCell) (stored : JSVal)
    (hrun : st.isRunning = true)
    (hrepo : st.repo.lookup (JS.toUpper subName)
      = some ⟨subId, [], [], [p], [.move (.s ('"' :: (v ++ ['"']))) p none]⟩)
    (hA : Runtime.getVariable st a = .ok (ia, cell))
    (hheap : st.heap.get? ia = some cell)
    (hstore : Runtime.applyPicRules (.str v) cell.picType cell.length = .ok stored) :
    (∀ (params : List Str) (idxs : List Nat) (i : Nat) (pk : Str) (ji : Nat),
        params.Nodup → params.length = idxs.length →
        params.get? i = some pk → idxs.get? i = some ji →
        (Runtime.buildLinkage params idxs).lookup pk = some ji)
    ∧ Runtime.executeStatement (fuel + 4)
        (.call (.s ('"' :: (subName ++ ['"']))) [a]) st
      = .ok (Runtime.setRaw st ia stored)
    ∧ (Runtime.setRaw st ia stored).heap.get? ia
      = some { cell with rawValue := stored } := by
  refine ⟨fun params idxs i pk ji hnd hlen hp hj =>
    lookup_zip_reverse params idxs i pk ji hnd hlen hp hj, ?_, ?_⟩
  · have h1 : JS.startsWith ('"' :: (subName ++ ['"'])) ['"'] = true := by
      simp [JS.startsWith]
    simp [Runtime.executeStatement, Runtime.handleCall, Runtime.executeStatements,
      Runtime.resolveArgs, Runtime.buildLinkage, Runtime.initializeData,
      Runtime.setRaw, Runtime.popFrame,
      h1, stripQuotes_quote, hrepo, hA, hrun, hheap,
      bind, Except.bind, pure, Except.pure, Except.map]
    have h2 : JS.startsWith ('"' :: (v ++ ['"'])) ['"'] = true := by
      simp [JS.startsWith]
    have hheap2 : st.heap[ia]? = some cell := by simpa using hheap
    simp [Runtime.handleMove, Runtime.resolveValue, Runtime.getVariable,
      Runtime.liftE, Runtime.setRaw, h2, stripQuotes_quote, hheap2, hstore,
      JSVal.toChars, bind, Except.bind, pure, Except.pure, Except.map,
      List.lookup, Option.or]
  · simp only [Runtime.setRaw, hheap]
    exact get_set_self st.heap ia cell _ hheap

end ClaimC8Main

section ClaimC8Witness

/-- Witness subprogram: `MOVE "ZZ" TO LK-P.` with one linkage parameter. -/
def c8Sub : Program :=
  { id := "SUB".data, workingStorage := [], linkageSection := [],
    usingParameters := ["LK-P".data],
    statements := [.move (.s ('"' :: ("ZZ".data ++ ['"']))) "LK-P".data none] }

/-- Witness caller cell: `WS-X PIC X(5) VALUE "AAAAA"`. -/
def c8Cell : Runtime.VarCell :=
  { name := "WS-X".data, picType := .X, length := 5, rawValue := .str "AAAAA".data }

/-- Witness caller state with `WS-X` at heap index 0 and `SUB` loaded. -/
def c8State : Runtime.RState :=
  { callStack := [⟨"MAIN".data, [("WS-X".data, 0)], []⟩],
    heap := [c8Cell], output := [], errors := [], isRunning := true,
    repo := [("SUB".data, c8Sub)] }

/-- Witness for C8: `CALL "SUB" USING WS-X` where `SUB` moves `"ZZ"` into
its linkage parameter leaves the caller's `WS-X` cell holding `"ZZ   "`. -/
theorem C8_call_linkage_aliasing_witness :
    Runtime.executeStatement 4
      (.call (.s ('"' :: ("SUB".data ++ ['"']))) ["WS-X".data]) c8State
      = .ok (Runtime.setRaw c8State 0 (.str "ZZ   ".data))
    ∧ (Runtime.setRaw c8State 0 (.str "ZZ   ".data)).heap.get? 0
      = some { c8Cell with rawValue := .str "ZZ   ".data } :=
  (C8_call_linkage_aliasing c8State 0 "WS-X".data "LK-P".data "SUB".data "SUB".data
    "ZZ".data 0 c8Cell (.str "ZZ   ".data)
    (by with_unfolding_all rfl) (by with_unfolding_all rfl)
    (by with_unfolding_all rfl) (by with_unfolding_all rfl)
    (by with_unfolding_all rfl)).2

end ClaimC8Witness

namespace Lexer

/-- The token types of `types.ts` that `Lexer.tokenize` can emit, plus
`COLON` (declared in the source enum and consumed by the parser's
reference-modification rule, but never produced by the lexer). -/
inductive TokenType where
  | IDENTIFICATION | DIVISION | PROGRAM_ID | ENVIRONMENT | DATA
  | WORKING_STORAGE | SECTION | PROCEDURE | PIC | VALUE
  | MOVE | ADD | SUBTRACT | COMPUTE | TO | FROM
  | IF | THEN | ELSE | END_IF
  | PERFORM | UNTIL | TIMES | END_PERFORM
  | ACCEPT | DISPLAY | STOP | RUN | ZERO | SPACE
  | DOT | LPAREN | RPAREN | COLON
  | EQUALS | GREATER | LESS | PLUS | MINUS | POWER | ASTERISK | SLASH
  | LITERAL_STRING | LITERAL_NUMBER | IDENTIFIER | EOF
deriving DecidableEq

/-- A lexer token (`Token` of `types.ts`). -/
structure Token where
  type : TokenType
  value : Str
  line : Nat
  column : Nat
deriving DecidableEq

/-- The `KEYWORDS` table of `lexer.ts`. -/
def KEYWORDS : List (Str × TokenType) := [
  ("IDENTIFICATION".data, .IDENTIFICATION), ("DIVISION".data, .DIVISION),
  ("PROGRAM-ID".data, .PROGRAM_ID), ("ENVIRONMENT".data, .ENVIRONMENT),
  ("DATA".data, .DATA), ("WORKING-STORAGE".data, .WORKING_STORAGE),
  ("SECTION".data, .SECTION), ("PROCEDURE".data, .PROCEDURE),
  ("PIC".data, .PIC), ("VALUE".data, .VALUE), ("MOVE".data, .MOVE),
  ("ADD".data, .ADD), ("SUBTRACT".data, .SUBTRACT), ("COMPUTE".data, .COMPUTE),
  ("TO".data, .TO), ("FROM".data, .FROM), ("IF".data, .IF),
  ("THEN".data, .THEN), ("ELSE".data, .ELSE), ("END-IF".data, .END_IF),
  ("PERFORM".data, .PERFORM), ("UNTIL".data, .UNTIL), ("TIMES".data, .TIMES),
  ("END-PERFORM".data, .END_PERFORM), ("ACCEPT".data, .ACCEPT),
  ("DISPLAY".data, .DISPLAY), ("STOP".data, .STOP), ("RUN".data, .RUN),
  ("ZERO".data, .ZERO), ("ZEROS".data, .ZERO), ("ZEROES".data, .ZERO),
  ("SPACE".data, .SPACE), ("SPACES".data, .SPACE)]

/-- `Lexer.isAlphaNumeric` on one character: letter, digit or hyphen. -/
def isAlphaNumeric (c : Char) : Bool :=
  ('a' ≤ c ∧ c ≤ 'z') ∨ ('A' ≤ c ∧ c ≤ 'Z') ∨ ('0' ≤ c ∧ c ≤ '9') ∨ c = '-'

/-- The word-continuation scan of `lexer.ts` (lines 198-209): take
letters, digits, hyphens, and a dot followed by a digit. -/
def wordChars : Str → Str
  | [] => []
  | c :: rest =>
    if isAlphaNumeric c then c :: wordChars rest
    else if c = '.' then
      match rest with
      | d :: _ => if JS.isDigit d then c :: wordChars rest else []
      | [] => []
    else []

/-- The number test of `lexer.ts` line 214
(regex `[+-]?[0-9]+(.[0-9]+)?` anchored). -/
def isNumberTok (s : Str) : Bool :=
  let t : Str := match s with
    | c :: rest => if c = '+' ∨ c = '-' then rest else s
    | [] => []
  let ds := t.takeWhile JS.isDigit
  let rest := t.dropWhile JS.isDigit
  decide (ds ≠ []) && (decide (rest = (List.nil : Str)) ||
    (match rest with
     | '.' :: r2 => decide (r2 ≠ []) && r2.all JS.isDigit
     | _ => false))

/-- The content-area scan loop of `Lexer.tokenize` (lines 88-228), in the
source's dispatch order; the error carries the thrown message.  Fuel is a
model artifact: one unit is spent per loop step, and each step consumes
at least one character, so `length + 1` always suffices. -/
def scanLine : Nat → Str → Nat → Nat → Except Str (List Token)
  | 0, _, _, _ => .error "INTERNAL: FUEL EXHAUSTED".data
  | _ + 1, [], _, _ => .ok []
  | fuel + 1, c :: rest, lineNum, pos =>
    let col := pos + 8
    if JS.isWs c then scanLine fuel rest lineNum (pos + 1)
    else if c = '.' then
      (scanLine fuel rest lineNum (pos + 1)).map (Token.mk .DOT ['.'] lineNum col :: ·)
    else if c = '(' then
      (scanLine fuel rest lineNum (pos + 1)).map (Token.mk .LPAREN ['('] lineNum col :: ·)
    else if c = ')' then
      (scanLine fuel rest lineNum (pos + 1)).map (Token.mk .RPAREN [')'] lineNum col :: ·)
    else if c = '=' then
      (scanLine fuel rest lineNum (pos + 1)).map (Token.mk .EQUALS ['='] lineNum col :: ·)
    else if c = '>' then
      (scanLine fuel rest lineNum (pos + 1)).map (Token.mk .GREATER ['>'] lineNum col :: ·)
    else if c = '<' then
      (scanLine fuel rest lineNum (pos + 1)).map (Token.mk .LESS ['<'] lineNum col :: ·)
    else if c = '+' then
      (scanLine fuel rest lineNum (pos + 1)).map (Token.mk .PLUS ['+'] lineNum col :: ·)
    else if c = '-' then
      (scanLine fuel rest lineNum (pos + 1)).map (Token.mk .MINUS ['-'] lineNum col :: ·)
    else if c = '*' then
      match rest with
      | '*' :: rest2 =>
        (scanLine fuel rest2 lineNum (pos + 2)).map
          (Token.mk .POWER "**".data lineNum col :: ·)
      | _ =>
        (scanLine fuel rest lineNum (pos + 1)).map
          (Token.mk .ASTERISK ['*'] lineNum col :: ·)
    else if c = '/' then
      (scanLine fuel rest lineNum (pos + 1)).map (Token.mk .SLASH ['/'] lineNum col :: ·)
    else if c = '"' ∨ c = '\'' then
      let value := rest.takeWhile (· != c)
      match rest.dropWhile (· != c) with
      | [] =>
        .error ("IGYPS2002-S String literal not closed at Line ".data
          ++ JS.natToChars lineNum ++ ", Column ".data ++ JS.natToChars col)
      | _ :: rest3 =>
        (scanLine fuel rest3 lineNum (pos + value.length + 2)).map
          (Token.mk .LITERAL_STRING value lineNum col :: ·)
    else
      let nextIsDigit : Bool := match rest with
        | d :: _ => JS.isDigit d
        | [] => false
      if isAlphaNumeric c ∨ ((c = '+' ∨ c = '-') ∧ nextIsDigit) then
        let w := wordChars rest
        let value := c :: w
        let upperValue := JS.toUpper value
        let tok : Token :=
          if isNumberTok upperValue then ⟨.LITERAL_NUMBER, upperValue, lineNum, col⟩
          else match KEYWORDS.lookup upperValue with
            | some tt => ⟨tt, upperValue, lineNum, col⟩
            | none => ⟨.IDENTIFIER, upperValue, lineNum, col⟩
        (scanLine fuel (rest.drop w.length) lineNum (pos + value.length)).map (tok :: ·)
      else
        .error ("IGYPS2002-S Illegal character '".data ++ [c] ++ "' at Line ".data
          ++ JS.natToChars lineNum ++ ", Column ".data ++ JS.natToChars col)

/-- One line of `Lexer.tokenize` (lines 59-228): short lines and comment
lines yield nothing; otherwise columns 8-72 are scanned. -/
def tokenizeLine (rawLine : Str) (lineNum : Nat) : Except Str (List Token) :=
  if rawLine.length < 7 then .ok []
  else
    match rawLine.get? 6 with
    | none => .ok []
    | some indicator =>
      if indicator = '*' ∨ indicator = '/' then .ok []
      else
        let maxCol := min rawLine.length 72
        if rawLine.length ≤ 7 then .ok []
        else
          let lineContent := JS.substring rawLine 7 maxCol
          scanLine (lineContent.length + 1) lineContent lineNum 0

/-- All lines in order (`i` is the 0-based index of the next line). -/
def tokenizeLines : List Str → Nat → Except Str (List Token)
  | [], _ => .ok []
  | l :: rest, i => do
    let ts ← tokenizeLine l (i + 1)
    let ts2 ← tokenizeLines rest (i + 1)
    return ts ++ ts2

/-- Embedding of `Lexer.tokenize`: split into lines, scan each, append
the `EOF` sentinel; a thrown lexical error aborts. -/
def tokenize (source : Str) : Except Str (List Token) :=
  let lines := JS.splitLines source
  (tokenizeLines lines 0).map
    (fun ts => ts ++ [⟨.EOF, "EOF".data, lines.length + 1, 0⟩])

end Lexer

section ClaimC10

/-- The statement `MOVE A TO B(1:2).` laid out in fixed format (7 leading
spaces put the code in the content area, with `:` at column 21). -/
def c10ColonLine : Str := "       MOVE A TO B(1:2).".data

/-- The same line with the colon replaced by a space. -/
def c10PlainLine : Str := "       MOVE A TO B(1 2).".data

/-- C10: in the content area, `.`, `(` and `)` are indeed tokenized as
punctuation (first conjunct, a full token-by-token run), but `:` is NOT:
the lexer has no colon case, so a colon falls through to the
illegal-character branch and aborts tokenization with the fatal
`IGYPS2002-S` error (second conjunct), contradicting the spec. -/
theorem C10_colon_illegal_character :
    Lexer.tokenize c10PlainLine = .ok [
      ⟨.MOVE, "MOVE".data, 1, 8⟩, ⟨.IDENTIFIER, "A".data, 1, 13⟩,
      ⟨.TO, "TO".data, 1, 15⟩, ⟨.IDENTIFIER, "B".data, 1, 18⟩,
      ⟨.LPAREN, "(".data, 1, 19⟩, ⟨.LITERAL_NUMBER, "1".data, 1, 20⟩,
      ⟨.LITERAL_NUMBER, "2".data, 1, 22⟩, ⟨.RPAREN, ")".data, 1, 23⟩,
      ⟨.DOT, ".".data, 1, 24⟩, ⟨.EOF, "EOF".data, 2, 0⟩]
    ∧ Lexer.tokenize c10ColonLine
      = .error "IGYPS2002-S Illegal character ':' at Line 1, Column 21".data := by
  constructor
  · with_unfolding_all rfl
  · with_unfolding_all rfl

end ClaimC10

namespace Preprocessor

/-- The `missingCopy` payload of `PreprocessorResult`. -/
structure MissingCopy where
  name : Str
  line : Nat
  column : Nat
deriving DecidableEq

/-- `PreprocessorResult` of the preprocessor module (the one imported by
the application as `./compiler/preprocessor`; `parser.ts` carries an
older duplicate of the class without the copybook validation). -/
structure PreprocessorResult where
  expandedSource : Str
  missingCopy : Option MissingCopy
  error : Option Str
deriving DecidableEq

/-- A character of the copybook-name regex class `[\w-]`. -/
def isWordChar (c : Char) : Bool :=
  ('a' ≤ c ∧ c ≤ 'z') ∨ ('A' ≤ c ∧ c ≤ 'Z') ∨ ('0' ≤ c ∧ c ≤ '9') ∨ c = '_' ∨ c = '-'

/-- The anchored case-insensitive match `^COPY\s+([\w-]+)(.*)$` on the
statement string: the captured book name (original case) and the
remainder. -/
def matchCopy (statementStr : Str) : Option (Str × Str) :=
  if JS.toUpper (statementStr.take 4) = "COPY".data then
    let rest := statementStr.drop 4
    let ws := rest.takeWhile JS.isWs
    let rest2 := rest.dropWhile JS.isWs
    let name := rest2.takeWhile isWordChar
    let remainder := rest2.drop name.length
    if ws ≠ [] ∧ name ≠ [] then some (name, remainder) else none
  else none

/-- The per-line `COPY` detection of `Preprocessor.process` (short and
comment lines are kept; a candidate inside a string literal, or one the
name regex rejects, is kept too).  Returns the uppercased book name, the
remainder after the name, and `actualCopyIdx`. -/
def scanCopyLine (line : Str) : Option (Str × Str × Nat) :=
  if line.length < 7 then none
  else
    match line.get? 6 with
    | none => none
    | some indicator =>
      if indicator = '*' ∨ indicator = '/' then none
      else
        let contentArea := line.drop 6
        let upperContent := JS.toUpper contentArea
        let copyIdx := JS.indexOfSub upperContent " COPY ".data
        let copyStartAtStart :=
          JS.startsWith (JS.trimStart upperContent) "COPY ".data
        let actualCopyIdx : Option Nat :=
          if copyStartAtStart then JS.indexOfSub upperContent "COPY".data
          else copyIdx.map (· + 1)
        match actualCopyIdx with
        | none => none
        | some idx =>
          let textBefore := contentArea.take idx
          let quoteCount := JS.countChar '"' textBefore + JS.countChar '\'' textBefore
          if quoteCount % 2 = 0 then
            match matchCopy (contentArea.drop idx) with
            | some (name, remainder) => some (JS.toUpper name, remainder, idx)
            | none => none
          else none

/-- The copybook-header validation of `prepareCopybook` (Validation 1). -/
def violatesHeader (l : Str) : Bool :=
  JS.includes l "DIVISION".data ∧
    (JS.includes l "IDENTIFICATION".data ∨ JS.includes l "ENVIRONMENT".data ∨
     JS.includes l "DATA".data ∨ JS.includes l "PROCEDURE".data)

/-- The column-72 validation of `prepareCopybook` (Validation 2):
over-long line whose indicator column is not a comment marker. -/
def violatesWidth (l : Str) : Bool :=
  72 < l.length ∧ (7 ≤ l.length ∧ l.get? 6 ≠ some '*')

/-- The per-line loop of `prepareCopybook`: validate, then push the line.
The `REPLACING` rewrite (active only when the remainder clause contains
`'REPLACING'`) is not modeled: every call below has a `REPLACING`-free
clause, for which the source's replacement list is empty and each line is
pushed unchanged, as here; the two validations run before any
replacement in the source. -/
def prepareLines (book : Str) : List Str → Nat → Except Str (List Str)
  | [], _ => .ok []
  | l :: rest, i =>
    if violatesHeader l then
      .error ("IGYDS2070-S COPYBOOK ".data ++ book ++ " CONTAINS ILLEGAL HEADER '".data
        ++ JS.trim l ++ "'. COPYBOOKS CANNOT CONTAIN DIVISIONS.".data)
    else if violatesWidth l then
      .error ("IGYDS2071-S COPYBOOK ".data ++ book ++ " LINE ".data
        ++ JS.natToChars (i + 1) ++ " EXCEEDS COLUMN 72.".data)
    else
      (prepareLines book rest (i + 1)).map (l :: ·)

/-- Embedding of `Preprocessor.prepareCopybook` for a `REPLACING`-free
remainder clause (see `prepareLines`): split, validate each line, return
the lines; a violation throws. -/
def prepareCopybook (content : Str) (replacingClause : Str) (book : Str) :
    Except Str (List Str) :=
  let _ := replacingClause
  prepareLines book (JS.splitLines content) 0

/-- Early exits of one scan pass: a missing copybook (name, 1-based line,
reported column) or an error thrown by `prepareCopybook`. -/
inductive PassExit where
  | missingBook : Str → Nat → Nat → PassExit
  | bookError : Str → PassExit
deriving DecidableEq

/-- The `*++ BEGIN COPY` marker line. -/
def beginComment (book : Str) : Str := "      *++ BEGIN COPY ".data ++ book

/-- The `*++ END COPY` marker line. -/
def endComment (book : Str) : Str := "      *++ END COPY ".data ++ book

/-- One pass of the `while` loop of `Preprocessor.process` over the
lines (`i` is the 0-based index of the next line): expand each `COPY`,
reporting the first missing book as
`{name, line: i+1, column: 7 + actualCopyIdx + 1}` or the first
validation error; otherwise return the new lines and the `hasChanges`
flag. -/
def processPass (library : List (Str × Str)) :
    List Str → Nat → Except PassExit (List Str × Bool)
  | [], _ => .ok ([], false)
  | line :: rest, i =>
    match scanCopyLine line with
    | none =>
      (processPass library rest (i + 1)).map (fun p => (line :: p.1, p.2))
    | some (bookName, remainder, idx) =>
      match library.lookup bookName with
      | none => .error (.missingBook bookName (i + 1) (7 + idx + 1))
      | some rawBookContent =>
        match prepareCopybook rawBookContent remainder bookName with
        | .error m => .error (.bookError m)
        | .ok injected =>
          (processPass library rest (i + 1)).map
            (fun p => (beginComment bookName :: (injected ++ [endComment bookName] ++ p.1), true))

/-- `MAX_LOOPS`. -/
def maxLoops : Nat := 100

/-- The pass loop of `Preprocessor.process`, with `n` the number of
passes the `loops < MAX_LOOPS` guard still allows: a missing book or a
thrown validation error returns immediately with the pass's input joined
back (no partial expansion); when the pass budget is exhausted the
nested-copy limit error is reported. -/
def processLoop (library : List (Str × Str)) : Nat → List Str → PreprocessorResult
  | 0, lines =>
    ⟨JS.joinLines lines, none,
      some "IGYDS1090-S COMPILER LIMIT EXCEEDED: NESTED COPY DEPTH.".data⟩
  | n + 1, lines =>
    match processPass library lines 0 with
    | .error (.missingBook name ln col) =>
      ⟨JS.joinLines lines, some ⟨name, ln, col⟩, none⟩
    | .error (.bookError m) => ⟨JS.joinLines lines, none, some m⟩
    | .ok (newLines, hasChanges) =>
      if n = 0 then
        ⟨JS.joinLines newLines, none,
          some "IGYDS1090-S COMPILER LIMIT EXCEEDED: NESTED COPY DEPTH.".data⟩
      else if hasChanges then processLoop library n newLines
      else ⟨JS.joinLines newLines, none, none⟩

/-- Embedding of `Preprocessor.process`. -/
def process (source : Str) (library : List (Str × Str)) : PreprocessorResult :=
  processLoop library maxLoops (JS.splitLines source)

end Preprocessor

section ClaimC6

/-- Uppercase letters, digits and hyphen: the characters of a COBOL-style
copybook name written the usual way (already uppercase). -/
def isUpperWord (c : Char) : Bool :=
  ('A' ≤ c ∧ c ≤ 'Z') ∨ ('0' ≤ c ∧ c ≤ '9') ∨ c = '-'

/-- Such characters are fixed by `toUpperCase`. -/
theorem upperChar_of_upperWord {c : Char} (h : isUpperWord c = true) :
    JS.upperChar c = c := by
  simp only [isUpperWord, decide_eq_true_eq] at h
  simp only [JS.upperChar]
  rw [if_neg]
  rintro ⟨h3, h4⟩
  rcases h with ⟨h1, h2⟩ | ⟨h1, h2⟩ | rfl
  · exact absurd (le_trans h3 h2) (by decide)
  · exact absurd (le_trans h3 h2) (by decide)
  · exact absurd h3 (by decide)

/-- Such characters are not whitespace. -/
theorem not_isWs_of_upperWord {c : Char} (h : isUpperWord c = true) :
    JS.isWs c = false := by
  simp only [isUpperWord, decide_eq_true_eq] at h
  simp only [JS.isWs]
  have h1 : c ≠ ' ' := by rintro rfl; revert h; decide
  have h2 : c ≠ '\t' := by rintro rfl; revert h; decide
  have h3 : c ≠ '\n' := by rintro rfl; revert h; decide
  have h4 : c ≠ '\r' := by rintro rfl; revert h; decide
  have h5 : c ≠ '\x0b' := by rintro rfl; revert h; decide
  have h6 : c ≠ '\x0c' := by rintro rfl; revert h; decide
  simp [h1, h2, h3, h4, h5, h6]

/-- Such characters are in the name regex class `[\w-]`. -/
theorem isWordChar_of_upperWord {c : Char} (h : isUpperWord c = true) :
    Preprocessor.isWordChar c = true := by
  simp only [isUpperWord, decide_eq_true_eq] at h
  simp only [Preprocessor.isWordChar, decide_eq_true_eq]
  rcases h with h | h | h
  · exact Or.inr (Or.inl h)
  · exact Or.inr (Or.inr (Or.inl h))
  · exact Or.inr (Or.inr (Or.inr (Or.inr h)))

/-- Such characters are not the newline. -/
theorem ne_newline_of_upperWord {c : Char} (h : isUpperWord c = true) :
    c ≠ '\n' := by
  rintro rfl; revert h; decide

/-- Uppercasing fixes a string of such characters. -/
theorem toUpper_of_upperWord : ∀ (s : Str), (∀ c ∈ s, isUpperWord c = true) →
    JS.toUpper s = s := by
  intro s h
  induction s with
  | nil => rfl
  | cons c rest ih =>
    simp only [JS.toUpper, List.map_cons]
    rw [upperChar_of_upperWord (h c (List.mem_cons_self c rest))]
    have := ih (fun x hx => h x (List.mem_cons_of_mem c hx))
    simp only [JS.toUpper] at this
    rw [this]

/-- A newline-free string splits into a single line. -/
theorem splitLines_no_newline : ∀ (s : Str), (∀ c ∈ s, c ≠ '\n') →
    JS.splitLines s = [s] := by
  intro s h
  induction s with
  | nil => rfl
  | cons c rest ih =>
    have hc : c ≠ '\n' := h c (List.mem_cons_self c rest)
    have := ih (fun x hx => h x (List.mem_cons_of_mem c hx))
    unfold JS.splitLines
    split
    · next heq => simp at heq
    · next heq =>
      injection heq with h1 _
      exact absurd h1 hc
    · next heq =>
      injection heq with h1 h2
      subst h1
      subst h2
      rw [this]

/-- C6 (amended): for a fixed-format line `COPY <name>` starting in Area
A (columns 8-11 hold `COPY`, so the keyword's exact 1-based column is 8)
with the book absent from the library, the preprocessor does return a
`missingCopy` result carrying the exact name, the exact 1-based line
number, and the unexpanded source — but the reported column is 9, one
GREATER than the keyword's actual column 8 (`7 + actualCopyIdx + 1`
instead of `7 + actualCopyIdx`). -/
theorem C6_missing_copy_reported_column (name : Str) (hne : name ≠ [])
    (hchars : ∀ c ∈ name, isUpperWord c = true) :
    Preprocessor.process ("       COPY ".data ++ name) []
      = ⟨"       COPY ".data ++ name, some ⟨name, 1, 9⟩, none⟩
    ∧ ("       COPY ".data ++ name).get? 7 = some 'C' := by
  obtain ⟨c0, rest0, rfl⟩ : ∃ c0 r, name = c0 :: r := by
    cases name with
    | nil => exact absurd rfl hne
    | cons a b => exact ⟨a, b, rfl⟩
  have hup : JS.toUpper (c0 :: rest0) = c0 :: rest0 := toUpper_of_upperWord _ hchars
  have hw0 : JS.isWs c0 = false :=
    not_isWs_of_upperWord (hchars c0 (List.mem_cons_self c0 rest0))
  have htw := takeWhile_all (p := Preprocessor.isWordChar) (c0 :: rest0)
    (fun c hc => isWordChar_of_upperWord (hchars c hc))
  have h1 : List.takeWhile JS.isWs (' ' :: c0 :: rest0) = [' '] := by
    simp [List.takeWhile_cons, show JS.isWs ' ' = true from rfl, hw0]
  have h2 : List.dropWhile JS.isWs (' ' :: c0 :: rest0) = c0 :: rest0 := by
    simp [List.dropWhile_cons, show JS.isWs ' ' = true from rfl, hw0]
  have hmc : Preprocessor.matchCopy ('C' :: 'O' :: 'P' :: 'Y' :: ' ' :: c0 :: rest0)
      = some (c0 :: rest0, []) := by
    unfold Preprocessor.matchCopy
    rw [show JS.toUpper (List.take 4 ('C' :: 'O' :: 'P' :: 'Y' :: ' ' :: c0 :: rest0))
        = "COPY".data from rfl]
    rw [if_pos rfl]
    rw [show List.drop 4 ('C' :: 'O' :: 'P' :: 'Y' :: ' ' :: c0 :: rest0)
        = ' ' :: c0 :: rest0 from rfl]
    dsimp only
    rw [h1, h2, htw.1, List.drop_length]
    simp
  have hupper6 : JS.toUpper (' ' :: 'C' :: 'O' :: 'P' :: 'Y' :: ' ' :: c0 :: rest0)
      = ' ' :: 'C' :: 'O' :: 'P' :: 'Y' :: ' ' :: c0 :: rest0 := by
    show List.map JS.upperChar ((' ' :: 'C' :: 'O' :: 'P' :: 'Y' :: [' ']) ++ (c0 :: rest0))
      = (' ' :: 'C' :: 'O' :: 'P' :: 'Y' :: [' ']) ++ (c0 :: rest0)
    rw [List.map_append,
      show List.map JS.upperChar (' ' :: 'C' :: 'O' :: 'P' :: 'Y' :: [' '])
        = ' ' :: 'C' :: 'O' :: 'P' :: 'Y' :: [' '] from rfl,
      show List.map JS.upperChar (c0 :: rest0) = c0 :: rest0 from hup]
  have hlen7 : ¬ ((' ' :: ' ' :: ' ' :: ' ' :: ' ' :: ' ' :: ' ' :: 'C' :: 'O' :: 'P'
      :: 'Y' :: ' ' :: c0 :: rest0).length < 7) := by
    simp only [List.length_cons]
    omega
  have hscan : Preprocessor.scanCopyLine (' ' :: ' ' :: ' ' :: ' ' :: ' ' :: ' ' :: ' '
      :: 'C' :: 'O' :: 'P' :: 'Y' :: ' ' :: c0 :: rest0)
      = some (c0 :: rest0, [], 1) := by
    unfold Preprocessor.scanCopyLine
    rw [if_neg hlen7]
    simp only [
      show List.get? (' ' :: ' ' :: ' ' :: ' ' :: ' ' :: ' ' :: ' ' :: 'C' :: 'O' :: 'P'
        :: 'Y' :: ' ' :: c0 :: rest0) 6 = some ' ' from rfl,
      show ¬ (' ' = '*' ∨ ' ' = '/') from by decide,
      show List.drop 6 (' ' :: ' ' :: ' ' :: ' ' :: ' ' :: ' ' :: ' ' :: 'C' :: 'O' :: 'P'
        :: 'Y' :: ' ' :: c0 :: rest0) = ' ' :: 'C' :: 'O' :: 'P' :: 'Y' :: ' ' :: c0 :: rest0 from rfl,
      hupper6,
      show JS.startsWith (JS.trimStart (' ' :: 'C' :: 'O' :: 'P' :: 'Y' :: ' ' :: c0 :: rest0))
        "COPY ".data = true from rfl,
      show JS.indexOfSub (' ' :: 'C' :: 'O' :: 'P' :: 'Y' :: ' ' :: c0 :: rest0) "COPY".data
        = some 1 from rfl,
      show List.take 1 (' ' :: 'C' :: 'O' :: 'P' :: 'Y' :: ' ' :: c0 :: rest0) = [' '] from rfl,
      show List.drop 1 (' ' :: 'C' :: 'O' :: 'P' :: 'Y' :: ' ' :: c0 :: rest0)
        = 'C' :: 'O' :: 'P' :: 'Y' :: ' ' :: c0 :: rest0 from rfl,
      show (JS.countChar '"' [' '] + JS.countChar '\'' [' ']) % 2 = 0 from rfl,
      hmc, hup, if_true, if_false]
  have hnl : ∀ c ∈ ("       COPY ".data ++ (c0 :: rest0)), c ≠ '\n' := by
    intro c hc
    rw [List.mem_append] at hc
    rcases hc with hc | hc
    · revert hc
      have hlit : ∀ x ∈ ("       COPY ".data), x ≠ '\n' := by decide
      exact hlit c
    · exact ne_newline_of_upperWord (hchars c hc)
  have hpass : Preprocessor.processPass [] ["       COPY ".data ++ (c0 :: rest0)] 0
      = .error (.missingBook (c0 :: rest0) 1 9) := by
    simp [Preprocessor.processPass, hscan, List.lookup]
  constructor
  · show Preprocessor.processLoop [] Preprocessor.maxLoops
      (JS.splitLines ("       COPY ".data ++ (c0 :: rest0))) = _
    rw [splitLines_no_newline _ hnl]
    show Preprocessor.processLoop [] (99 + 1) _ = _
    simp only [Preprocessor.processLoop, hpass]
    rfl
  · rfl


/-- Counterexample to C6 as stated: in `       COPY FOO` the `COPY`
keyword sits at 1-based column 8 (index 7 holds its `C`), yet the
missing-copy result reports column 9. -/
theorem C6_counterexample_column_off_by_one :
    Preprocessor.process "       COPY FOO".data []
      = ⟨"       COPY FOO".data, some ⟨"FOO".data, 1, 9⟩, none⟩
    ∧ ("       COPY FOO".data).get? 7 = some 'C'
    ∧ (9 : Nat) ≠ 8 :=
  ⟨by with_unfolding_all rfl, by with_unfolding_all rfl, by decide⟩

/-- Witness for C6 at the copybook name `FOO`. -/
theorem C6_missing_copy_reported_column_witness :
    Preprocessor.process ("       COPY ".data ++ "FOO".data) []
      = ⟨"       COPY ".data ++ "FOO".data, some ⟨"FOO".data, 1, 9⟩, none⟩
    ∧ ("       COPY ".data ++ "FOO".data).get? 7 = some 'C' :=
  C6_missing_copy_reported_column "FOO".data (by decide) (by decide)

end ClaimC6

section ClaimC7

/-- A string starts with any of its prefixes. -/
theorem startsWith_append : ∀ (p t : Str), JS.startsWith (p ++ t) p = true := by
  intro p
  induction p with
  | nil => intro t; cases t <;> rfl
  | cons c cs ih => intro t; simp [JS.startsWith, ih t]

/-- A copybook containing a violating line makes `prepareLines` throw one
of the two validation errors, whose text names the copybook. -/
theorem prepareLines_error (book : Str) : ∀ (ls : List Str) (i : Nat),
    (∃ l ∈ ls, Preprocessor.violatesHeader l = true ∨ Preprocessor.violatesWidth l = true) →
    ∃ m, Preprocessor.prepareLines book ls i = .error m ∧
      ((∃ l, m = "IGYDS2070-S COPYBOOK ".data ++ book ++ " CONTAINS ILLEGAL HEADER '".data
          ++ JS.trim l ++ "'. COPYBOOKS CANNOT CONTAIN DIVISIONS.".data)
       ∨ (∃ j, m = "IGYDS2071-S COPYBOOK ".data ++ book ++ " LINE ".data
          ++ JS.natToChars j ++ " EXCEEDS COLUMN 72.".data)) := by
  intro ls
  induction ls with
  | nil => intro i h; simp at h
  | cons l rest ih =>
    intro i h
    by_cases hH : Preprocessor.violatesHeader l = true
    · refine ⟨_, ?_, Or.inl ⟨l, rfl⟩⟩
      simp [Preprocessor.prepareLines, hH]
    · by_cases hW : Preprocessor.violatesWidth l = true
      · refine ⟨_, ?_, Or.inr ⟨i + 1, rfl⟩⟩
        simp [Preprocessor.prepareLines, hH, hW]
      · have hrest : ∃ x ∈ rest,
            Preprocessor.violatesHeader x = true ∨ Preprocessor.violatesWidth x = true := by
          rcases h with ⟨x, hx, hv⟩
          rcases List.mem_cons.mp hx with rfl | hx2
          · rcases hv with hv | hv
            · exact absurd hv hH
            · exact absurd hv hW
          · exact ⟨x, hx2, hv⟩
        obtain ⟨m, hm, hshape⟩ := ih (i + 1) hrest
        refine ⟨m, ?_, hshape⟩
        simp [Preprocessor.prepareLines, hH, hW, hm, Except.map]

/-- The caller line `COPY CPY.` used to exercise the validation. -/
def c7Source : Str := "       COPY CPY.".data

/-- C7: a copybook found in the library is validated before inlining:
whenever its text contains a line with a Division header, or an in-range
code line extending beyond column 72, the preprocessor returns a fatal
error whose message names the offending copybook (`IGYDS2070-S` names
the header line's text, `IGYDS2071-S` the line number), with the source
returned unexpanded and no missing-copy signal. -/
theorem C7_copybook_validation (content : Str)
    (hviol : ∃ l ∈ JS.splitLines content,
      Preprocessor.violatesHeader l = true ∨ Preprocessor.violatesWidth l = true) :
    ∃ m, Preprocessor.process c7Source [("CPY".data, content)]
        = ⟨c7Source, none, some m⟩
      ∧ (JS.startsWith m "IGYDS2070-S COPYBOOK CPY ".data = true
         ∨ JS.startsWith m "IGYDS2071-S COPYBOOK CPY ".data = true) := by
  obtain ⟨m, hm, hshape⟩ := prepareLines_error "CPY".data (JS.splitLines content) 0 hviol
  refine ⟨m, ?_, ?_⟩
  · have hscan : Preprocessor.scanCopyLine c7Source
        = some ("CPY".data, ".".data, 1) := by with_unfolding_all rfl
    show Preprocessor.processLoop _ Preprocessor.maxLoops (JS.splitLines c7Source) = _
    rw [show JS.splitLines c7Source = [c7Source] from by with_unfolding_all rfl]
    show Preprocessor.processLoop _ (99 + 1) _ = _
    simp [Preprocessor.processLoop, Preprocessor.processPass, hscan, List.lookup,
      Preprocessor.prepareCopybook, hm, JS.joinLines]
  · rcases hshape with ⟨l, rfl⟩ | ⟨j, rfl⟩
    · exact Or.inl rfl
    · exact Or.inr rfl

/-- Witness for C7: a copybook consisting of the line `DATA DIVISION.`
(an illegal Division header). -/
theorem C7_copybook_validation_witness :
    ∃ m, Preprocessor.process c7Source [("CPY".data, "DATA DIVISION.".data)]
        = ⟨c7Source, none, some m⟩
      ∧ (JS.startsWith m "IGYDS2070-S COPYBOOK CPY ".data = true
         ∨ JS.startsWith m "IGYDS2071-S COPYBOOK CPY ".data = true) :=
  C7_copybook_validation "DATA DIVISION.".data
    ⟨"DATA DIVISION.".data, by with_unfolding_all decide⟩

end ClaimC7
